import Mathlib

/-!
Verification of the bashwallet ledger core: a shallow embedding of the
wallet/transaction data model (`app/models`), the transfer service
(`app/services/transfer_service.py`), the Paystack deposit-webhook pipeline
(`app/services/paystack_service.py`), the API-key lifecycle
(`app/services/api_key_service.py`, `app/utils/expiry.py`) and the amount
validation helper (`app/utils/wallet.py`).

Monetary `Decimal` values are embedded as `ℚ` (the code's amounts are
fixed-point decimals, a subset of the rationals, and Python `Decimal`
arithmetic on them is exact at the magnitudes the validator admits).
Timestamps are embedded as `ℕ`. Database sessions are embedded as explicit
state passing on a `DB` record; each function returns the committed store
that the corresponding Python call leaves behind.
-/

namespace BashWallet

/-- Python `int(q)`: truncation toward zero. -/
def pyInt (q : ℚ) : ℤ :=
  if 0 ≤ q then ⌊q⌋ else -⌊-q⌋

/-- `app/utils/wallet.py::validate_wallet_amount`: positive, at most
1,000,000, and at most two decimal places (the code's
`amount.quantize(Decimal('0.01')) != amount` test is numeric equality, i.e.
it holds exactly when `amount * 100` is an integer). -/
def validate_wallet_amount (amount : ℚ) : Bool :=
  if amount ≤ 0 then false
  else if 1000000 < amount then false
  else if (amount * 100).den ≠ 1 then false
  else true

/-- `app/services/paystack_service.py::convert_naira_to_kobo`:
`int(amount * 100)`. -/
def convert_naira_to_kobo (amount : ℚ) : ℤ :=
  pyInt (amount * 100)

/-- `app/services/paystack_service.py::convert_kobo_to_naira`:
`Decimal(amount) / 100`. -/
def convert_kobo_to_naira (amount : ℤ) : ℚ :=
  (amount : ℚ) / 100

/-- `app/models/wallet.py::Wallet` (claim-relevant columns). -/
structure Wallet where
  id : ℕ
  user_id : ℕ
  wallet_number : String
  balance : ℚ
  deriving Repr, DecidableEq

/-- `Wallet.has_sufficient_balance`: `balance >= amount`. -/
def Wallet.has_sufficient_balance (w : Wallet) (amount : ℚ) : Bool :=
  amount ≤ w.balance

/-- `Wallet.credit_balance`: `balance += amount`. -/
def Wallet.credit_balance (w : Wallet) (amount : ℚ) : Wallet :=
  { w with balance := w.balance + amount }

/-- `Wallet.debit_balance`: raises `ValueError` unless sufficient, else
`balance -= amount`. -/
def Wallet.debit_balance (w : Wallet) (amount : ℚ) : Except String Wallet :=
  if w.has_sufficient_balance amount then
    .ok { w with balance := w.balance - amount }
  else
    .error "Insufficient wallet balance"

/-- `app/models/transaction.py::TransactionType`. -/
inductive TransactionType where
  | deposit
  | withdrawal
  | transfer
  | fee
  | refund
  deriving Repr, DecidableEq

/-- `app/models/transaction.py::TransactionStatus`. -/
inductive TransactionStatus where
  | pending
  | completed
  | failed
  | cancelled
  deriving Repr, DecidableEq

/-- Python dict merge `{**old, key: value}` on the JSON metadata blob,
flattened to a string-valued association list. -/
def metaSet (m : List (String × String)) (key value : String) :
    List (String × String) :=
  m.filter (fun p => p.1 ≠ key) ++ [(key, value)]

/-- Metadata lookup. -/
def metaGet (m : List (String × String)) (key : String) : Option String :=
  (m.find? (fun p => p.1 == key)).map (·.2)

/-- `app/models/transaction.py::Transaction` (claim-relevant columns). -/
structure Transaction where
  id : ℕ
  user_id : ℕ
  transaction_type : TransactionType
  amount : ℚ
  description : Option String
  reference : Option String
  status : TransactionStatus
  source_wallet_id : Option ℕ
  destination_wallet_id : Option ℕ
  transaction_metadata : List (String × String)
  completed_at : Option ℕ
  deriving Repr, DecidableEq

/-- `Transaction.mark_completed`: sets status `completed` and stamps
`completed_at` with the current time. -/
def Transaction.mark_completed (t : Transaction) (now : ℕ) : Transaction :=
  { t with status := .completed, completed_at := some now }

/-- The committed store: wallet and transaction rows. -/
structure DB where
  wallets : List Wallet
  transactions : List Transaction
  deriving Repr, DecidableEq

/-- `select(Transaction).where(Transaction.reference == r)` + `.first()`. -/
def DB.findTransactionByReference (db : DB) (r : String) : Option Transaction :=
  db.transactions.find? (fun t => t.reference == some r)

/-- `select(Wallet).where(Wallet.user_id == uid)` + `.first()`. -/
def DB.findWalletByUser (db : DB) (uid : ℕ) : Option Wallet :=
  db.wallets.find? (fun w => w.user_id == uid)

/-- Lookup of a wallet row by primary key. -/
def DB.findWalletById (db : DB) (i : ℕ) : Option Wallet :=
  db.wallets.find? (fun w => w.id == i)

/-- Committing a mutated wallet ORM object: the row with the same primary
key is replaced. -/
def DB.updateWallet (db : DB) (w' : Wallet) : DB :=
  { db with wallets := db.wallets.map (fun w => if w.id == w'.id then w' else w) }

/-- Committing a mutated transaction ORM object: the row with the same
primary key is replaced. -/
def DB.updateTransaction (db : DB) (t' : Transaction) : DB :=
  { db with
    transactions := db.transactions.map (fun t => if t.id == t'.id then t' else t) }

end BashWallet

namespace BashWallet

/-- Claim-relevant fields of a Paystack `charge.success` webhook payload:
the event name, `data.reference`, and the minor-unit `data.amount`. -/
structure WebhookPayload where
  event : String
  reference : Option String
  amount_kobo : ℤ
  deriving Repr, DecidableEq

/-- `app/services/paystack_service.py::process_deposit_webhook`.

`exc` models an exception interrupting the final try-block (step 7): `none`
means no exception; `some k` means the exception fires after `k` of the
three statements before `db.commit()` have run (`0`: inside
`wallet.credit_balance`, before the balance changed; `1`: after the credit,
inside `transaction.mark_completed`; `2`: after both, inside the metadata
assignment). The except-handler then sets the status to FAILED and commits,
which also flushes every mutation already applied in memory.

The webhook body stored into the metadata JSON is flattened to the payload's
reference string (the claims never inspect it). Returns the Python `bool`
result together with the committed store. -/
def process_deposit_webhook (payload : WebhookPayload) (exc : Option (Fin 3))
    (now : ℕ) (db : DB) : Bool × DB :=
  if payload.event ≠ "charge.success" then (true, db)
  else
    match payload.reference with
    | none => (false, db)
    | some r =>
      if r = "" then (false, db)
      else
        match db.findTransactionByReference r with
        | none => (false, db)
        | some txn =>
          if txn.status = .completed then (true, db)
          else if convert_kobo_to_naira payload.amount_kobo ≠ txn.amount then
            let txn' := { txn with
              status := .failed,
              transaction_metadata :=
                metaSet (metaSet txn.transaction_metadata
                  "failure_reason" "Amount mismatch") "webhook_data" r }
            (false, db.updateTransaction txn')
          else
            match db.findWalletByUser txn.user_id with
            | none => (false, db.updateTransaction { txn with status := .failed })
            | some wallet =>
              match exc with
              | none =>
                let wallet' := wallet.credit_balance txn.amount
                let txn' := { txn.mark_completed now with
                  transaction_metadata :=
                    metaSet (metaSet txn.transaction_metadata
                      "webhook_processed" "true") "paystack_data" r }
                (true, (db.updateWallet wallet').updateTransaction txn')
              | some k =>
                let db1 :=
                  if 1 ≤ k.val then db.updateWallet (wallet.credit_balance txn.amount)
                  else db
                let txnExc :=
                  if 2 ≤ k.val then { txn.mark_completed now with status := .failed }
                  else { txn with status := .failed }
                (false, db1.updateTransaction txnExc)

/-- Delivering the same webhook payload `n` times in sequence, with no
exception during the credit step. -/
def deliverWebhookN (payload : WebhookPayload) (now : ℕ) : ℕ → DB → DB
  | 0, db => db
  | n + 1, db => deliverWebhookN payload now n (process_deposit_webhook payload none now db).2

/-- `app/schemas/wallet_schemas.py::TransferResponse` (claim-relevant
fields). -/
structure TransferResponse where
  transaction_id : ℕ
  sender_wallet : String
  recipient_wallet : String
  amount : ℚ
  message : String
  deriving Repr, DecidableEq

/-- `app/services/transfer_service.py::create_transfer_transaction`.

The fresh `uuid`-based reference (`transfer_…`) is passed in as `ref`, and
the primary keys the store assigns to the two inserted rows as `id1`/`id2`.
The function ends with `await db.commit()`, so the returned `DB` is a
committed store already containing both pending rows. -/
def create_transfer_transaction (sender_wallet recipient_wallet : Wallet)
    (amount : ℚ) (description : Option String) (ref : String) (id1 id2 : ℕ)
    (db : DB) : Transaction × Transaction × DB :=
  let debit_transaction : Transaction :=
    { id := id1
      user_id := sender_wallet.user_id
      transaction_type := .transfer
      amount := amount
      description := some (description.getD "Wallet transfer sent")
      reference := some ref
      status := .pending
      source_wallet_id := some sender_wallet.id
      destination_wallet_id := some recipient_wallet.id
      transaction_metadata :=
        [("recipient_wallet", recipient_wallet.wallet_number),
         ("transfer_type", "debit")]
      completed_at := none }
  let credit_transaction : Transaction :=
    { id := id2
      user_id := recipient_wallet.user_id
      transaction_type := .transfer
      amount := amount
      description := some (description.getD "Wallet transfer received")
      reference := some ref
      status := .pending
      source_wallet_id := some sender_wallet.id
      destination_wallet_id := some recipient_wallet.id
      transaction_metadata :=
        [("sender_wallet", sender_wallet.wallet_number),
         ("transfer_type", "credit")]
      completed_at := none }
  (debit_transaction, credit_transaction,
    { db with transactions := db.transactions ++ [debit_transaction, credit_transaction] })

/-- `app/services/transfer_service.py::execute_transfer`.

`failpoint = true` models a failure occurring after
`create_transfer_transaction` has committed the two pending rows (any
exception in the remaining in-memory steps, or the surrounding request
glue failing to commit). On an error the returned `DB` is the committed
store at that point — the session's uncommitted mutations are rolled back,
but everything `create_transfer_transaction` committed persists. On success
the returned `DB` is the session state the caller's commit publishes. -/
def execute_transfer (sender_wallet recipient_wallet : Wallet) (amount : ℚ)
    (description : Option String) (ref : String) (id1 id2 : ℕ)
    (failpoint : Bool) (now : ℕ) (db : DB) :
    Except (String × DB) (TransferResponse × DB) :=
  if ¬ validate_wallet_amount amount then
    .error ("Invalid transfer amount", db)
  else if amount ≤ 0 then
    .error ("Transfer amount must be greater than zero", db)
  else if sender_wallet.balance < amount then
    .error ("Insufficient balance", db)
  else if sender_wallet.id = recipient_wallet.id then
    .error ("Cannot transfer to your own wallet", db)
  else
    let res := create_transfer_transaction sender_wallet recipient_wallet
      amount description ref id1 id2 db
    let debit_transaction := res.1
    let credit_transaction := res.2.1
    let db1 := res.2.2
    if failpoint then .error ("Transfer failed", db1)
    else
      match sender_wallet.debit_balance amount with
      | .error e => .error ("Transfer failed: " ++ e, db1)
      | .ok sender' =>
        let recipient' := recipient_wallet.credit_balance amount
        let debit' := debit_transaction.mark_completed now
        let credit' := credit_transaction.mark_completed now
        let db2 := (((db1.updateWallet sender').updateWallet
          recipient').updateTransaction debit').updateTransaction credit'
        .ok
          ({ transaction_id := debit_transaction.id
             sender_wallet := sender_wallet.wallet_number
             recipient_wallet := recipient_wallet.wallet_number
             amount := amount
             message := "Transfer successful" }, db2)

end BashWallet

namespace BashWallet

/-- `app/models/api_key.py::APIKey` (claim-relevant columns);
timestamps are `ℕ`. -/
structure APIKey where
  id : ℕ
  user_id : ℕ
  name : String
  hashed_key : String
  permissions : List String
  expires_at : ℕ
  revoked : Bool
  revoked_at : Option ℕ
  last_used_at : Option ℕ
  deriving Repr, DecidableEq

/-- `APIKey.is_expired`: `utc_now >= expires_at`. -/
def APIKey.is_expired (k : APIKey) (now : ℕ) : Bool :=
  k.expires_at ≤ now

/-- `APIKey.is_active`: not revoked and not expired. -/
def APIKey.is_active (k : APIKey) (now : ℕ) : Bool :=
  !k.revoked && !(k.is_expired now)

/-- `app/models/user.py::User` (claim-relevant column). -/
structure UserRec where
  id : ℕ
  deriving Repr, DecidableEq

/-- The key store: API key rows and user rows. -/
structure KeyDB where
  keys : List APIKey
  users : List UserRec
  deriving Repr, DecidableEq

/-- Committing a mutated API-key ORM object: the row with the same primary
key is replaced. -/
def KeyDB.updateKey (db : KeyDB) (k' : APIKey) : KeyDB :=
  { db with keys := db.keys.map (fun k => if k.id == k'.id then k' else k) }

/-- Python `str.upper()` on one character, in the ASCII range the key
service's duration codes use. -/
def pyUpperChar (c : Char) : Char :=
  if 'a' ≤ c ∧ c ≤ 'z' then Char.ofNat (c.toNat - 32) else c

/-- Python `expiry.upper()` (ASCII model). -/
def pyUpper (s : String) : String :=
  ⟨s.data.map pyUpperChar⟩

/-- The units of `app/utils/expiry.py`: hours, days, months, years. -/
inductive ExpiryUnit where
  | H
  | D
  | M
  | Y
  deriving Repr, DecidableEq

/-- `(ds, r) := spanDigits cs` splits `cs` into its maximal digit prefix and
the rest, mirroring how the greedy `\d+` of `re.match` consumes input (the
following character class contains no digits, so no backtracking occurs). -/
def spanDigits : List Char → List Char × List Char
  | [] => ([], [])
  | c :: cs =>
    if c.isDigit then
      let p := spanDigits cs
      (c :: p.1, p.2)
    else ([], c :: cs)

/-- Numeric value of a digit string, as `int(...)` computes it. -/
def digitsToNat (cs : List Char) : ℕ :=
  cs.foldl (fun n c => 10 * n + (c.toNat - 48)) 0

/-- The regex of `app/utils/expiry.py::parse_expiry`:
`re.match(r'^(\d+)([HD MY])$', expiry.upper())`, applied here to the
already-uppercased character list. The character class is literally
`[HD MY]` — it contains a space. Python's `$` also matches just before a
single newline at the end of the string, so an optional trailing `'\n'` is
tolerated. Returns the two capture groups on a match. -/
def expiryReMatch (cs : List Char) : Option (List Char × Char) :=
  let p := spanDigits cs
  if p.1 = [] then none
  else
    match p.2 with
    | [u] =>
      if u = 'H' ∨ u = 'D' ∨ u = ' ' ∨ u = 'M' ∨ u = 'Y' then some (p.1, u)
      else none
    | [u, c] =>
      if c = '\n' ∧ (u = 'H' ∨ u = 'D' ∨ u = ' ' ∨ u = 'M' ∨ u = 'Y') then
        some (p.1, u)
      else none
    | _ => none

/-- `app/utils/expiry.py::parse_expiry`, up to the unit dispatch: returns
the count and unit, or the `ValueError` message. (The date arithmetic of
the `timedelta`/`relativedelta` branches happens in `add_duration` below;
Unicode-only behavior of `str.upper`/`\d` is out of the ASCII model.) -/
def parse_expiry (expiry : String) : Except String (ℕ × ExpiryUnit) :=
  if expiry = "" then .error "Expiry string cannot be empty"
  else
    match expiryReMatch (pyUpper expiry).data with
    | none => .error "Invalid expiry format. Use: 1H, 2D, 3M, 4Y"
    | some (ds, u) =>
      if u = 'H' then .ok (digitsToNat ds, .H)
      else if u = 'D' then .ok (digitsToNat ds, .D)
      else if u = 'M' then .ok (digitsToNat ds, .M)
      else if u = 'Y' then .ok (digitsToNat ds, .Y)
      else .error "Unsupported expiry unit"

/-- `app/utils/expiry.py::validate_expiry_format`: `parse_expiry` succeeds
(every failure above raises `ValueError`, which it catches). -/
def validate_expiry_format (expiry : String) : Bool :=
  match parse_expiry expiry with
  | .ok _ => true
  | .error _ => false

/-- The absolute expiry `parse_expiry` derives from `now`, with the clock
counted in hours; the calendar-exact `relativedelta` month/year arithmetic
lives in the external `dateutil` and is approximated by 30- and 365-day
spans (no claim depends on the exact date). -/
def add_duration (now amount : ℕ) : ExpiryUnit → ℕ
  | .H => now + amount
  | .D => now + 24 * amount
  | .M => now + 24 * 30 * amount
  | .Y => now + 24 * 365 * amount

/-- `app/services/api_key_service.py::get_active_api_keys_count`: rows with
this `user_id`, `revoked == False`, `expires_at > now`. -/
def get_active_api_keys_count (uid : ℕ) (now : ℕ) (db : KeyDB) : ℕ :=
  (db.keys.filter (fun k => k.user_id == uid && !k.revoked && now < k.expires_at)).length

/-- `app/services/api_key_service.py::create_api_key`. The generated plain
secret's hash is passed in as `hashed`, the store-assigned primary key as
`newId`. On an error (`HTTPException`) nothing is persisted. -/
def create_api_key (uid : ℕ) (name : String) (permissions : List String)
    (expiry : String) (newId : ℕ) (hashed : String) (now : ℕ) (db : KeyDB) :
    Except String (APIKey × KeyDB) :=
  if ¬ validate_expiry_format expiry then
    .error "Invalid expiry format. Use: 1H, 2D, 3M, 4Y"
  else if 5 ≤ get_active_api_keys_count uid now db then
    .error "Maximum of 5 active API keys allowed"
  else
    match parse_expiry expiry with
    | .error e => .error e
    | .ok (amount, unit) =>
      let api_key : APIKey :=
        { id := newId
          user_id := uid
          name := name
          hashed_key := hashed
          permissions := permissions
          expires_at := add_duration now amount unit
          revoked := false
          revoked_at := none
          last_used_at := none }
      .ok (api_key, { db with keys := db.keys ++ [api_key] })

/-- `app/services/api_key_service.py::rollover_api_key`. -/
def rollover_api_key (uid : ℕ) (expired_key_id : ℕ) (expiry : String)
    (newId : ℕ) (hashed : String) (now : ℕ) (db : KeyDB) :
    Except String (APIKey × KeyDB) :=
  if ¬ validate_expiry_format expiry then
    .error "Invalid expiry format. Use: 1H, 2D, 3M, 4Y"
  else
    match db.keys.find? (fun k => k.id == expired_key_id && k.user_id == uid) with
    | none => .error "Expired API key not found"
    | some expired_key =>
      if ¬ expired_key.is_expired now then
        .error "Key must be expired to rollover"
      else if 5 ≤ get_active_api_keys_count uid now db then
        .error "Maximum of 5 active API keys exceeded. Cannot rollover."
      else
        match parse_expiry expiry with
        | .error e => .error e
        | .ok (amount, unit) =>
          let new_key : APIKey :=
            { id := newId
              user_id := uid
              name := expired_key.name ++ " (rolled over)"
              hashed_key := hashed
              permissions := expired_key.permissions
              expires_at := add_duration now amount unit
              revoked := false
              revoked_at := none
              last_used_at := none }
          .ok (new_key, { db with keys := db.keys ++ [new_key] })

/-- `app/services/api_key_service.py::revoke_api_key`: not-found raises;
an already-revoked key is returned untouched (idempotent); otherwise
`revoke()` sets `revoked`/`revoked_at` and the change is committed. -/
def revoke_api_key (uid : ℕ) (key_id : ℕ) (now : ℕ) (db : KeyDB) :
    Except String (APIKey × KeyDB) :=
  match db.keys.find? (fun k => k.id == key_id && k.user_id == uid) with
  | none => .error "API key not found"
  | some api_key =>
    if ¬ api_key.revoked then
      let k' := { api_key with revoked := true, revoked_at := some now }
      .ok (k', db.updateKey k')
    else
      .ok (api_key, db)

/-- `app/services/api_key_service.py::validate_api_key`: select the keys
with `revoked == False` and `expires_at > now`, then scan them with the
hashing primitive's `verify_api_key` (passed in as the black-box `verify`);
on the first match, stamp `last_used_at`, fetch the owning user, commit,
and return both; otherwise return `(None, None)` with the store untouched. -/
def validate_api_key (api_key : String) (verify : String → String → Bool)
    (now : ℕ) (db : KeyDB) : (Option (APIKey × Option UserRec)) × KeyDB :=
  match (db.keys.filter (fun k => !k.revoked && now < k.expires_at)).find?
      (fun k => verify api_key k.hashed_key) with
  | none => (none, db)
  | some key_obj =>
    (some ({ key_obj with last_used_at := some now },
        db.users.find? (fun u => u.id == key_obj.user_id)),
      db.updateKey { key_obj with last_used_at := some now })

/-- One timestamped lifecycle operation of claim C6's traces: a key
creation or a rollover, carrying the inputs the service receives. -/
inductive KeyOp where
  | create (uid : ℕ) (name : String) (permissions : List String)
      (expiry : String) (newId : ℕ) (hashed : String) (time : ℕ)
  | rollover (uid : ℕ) (expired_key_id : ℕ) (expiry : String)
      (newId : ℕ) (hashed : String) (time : ℕ)
  deriving Repr

/-- The wall-clock instant at which an operation runs. -/
def KeyOp.time : KeyOp → ℕ
  | .create _ _ _ _ _ _ t => t
  | .rollover _ _ _ _ _ t => t

/-- Running one lifecycle operation against the committed store: a failing
call (an `HTTPException`) leaves the store unchanged. -/
def KeyOp.apply (op : KeyOp) (db : KeyDB) : KeyDB :=
  match op with
  | .create uid name permissions expiry newId hashed t =>
    match create_api_key uid name permissions expiry newId hashed t db with
    | .ok p => p.2
    | .error _ => db
  | .rollover uid ekid expiry newId hashed t =>
    match rollover_api_key uid ekid expiry newId hashed t db with
    | .ok p => p.2
    | .error _ => db

/-- Running a sequence of lifecycle operations, oldest first. -/
def runKeyOps : List KeyOp → KeyDB → KeyDB
  | [], db => db
  | op :: rest, db => runKeyOps rest (op.apply db)

/-- The empty key store. -/
def emptyKeyDB : KeyDB :=
  { keys := [], users := [] }

/-- The grammar `\d+[HDMY]` named by the spec and claim C9: a nonempty run
of digits followed by exactly one of `H`, `D`, `M`, `Y`. (Stated from the
spec's words, for comparison with `validate_expiry_format` above.) -/
def matches_spec_grammar (s : String) : Bool :=
  let p := spanDigits s.data
  match p.2 with
  | [u] => !p.1.isEmpty && (u == 'H' || u == 'D' || u == 'M' || u == 'Y')
  | _ => false

/-- Removing one trailing newline if present, as Python's `$` anchor
tolerates. -/
def stripNLCore : List Char → List Char
  | [] => []
  | [c] => if c = '\n' then [] else [c]
  | c :: cs => c :: stripNLCore cs

/-- The unit dispatch at the end of `parse_expiry`: the match result is
accepted exactly when its unit group is one of `H`, `D`, `M`, `Y` (the
space the character class admits falls through to the `ValueError` arm). -/
def expiryUnitAccepted : Option (List Char × Char) → Bool
  | none => false
  | some (_, u) => u == 'H' || u == 'D' || u == 'M' || u == 'Y'

/-- `stripNLCore` on strings. -/
def stripTrailingNewline (s : String) : String :=
  ⟨stripNLCore s.data⟩

/-- Sample wallet of user 7 with zero balance. -/
def exWalletA : Wallet :=
  { id := 1, user_id := 7, wallet_number := "WAL000001", balance := 0 }

/-- Sample pending 50.00-naira deposit transaction of user 7 under
reference `ref1`. -/
def exDeposit : Transaction :=
  { id := 10
    user_id := 7
    transaction_type := .deposit
    amount := 50
    description := none
    reference := some "ref1"
    status := .pending
    source_wallet_id := none
    destination_wallet_id := none
    transaction_metadata := [("paystack_amount_kobo", "5000")]
    completed_at := none }

/-- Sample store holding `exWalletA` and `exDeposit`. -/
def exDB : DB :=
  { wallets := [exWalletA], transactions := [exDeposit] }

/-- A `charge.success` webhook for `ref1` carrying the matching 5000 kobo. -/
def exPayload : WebhookPayload :=
  { event := "charge.success", reference := some "ref1", amount_kobo := 5000 }

/-- A `charge.success` webhook for `ref1` carrying a mismatching 4000 kobo
(40.00 naira against the recorded 50.00). -/
def exPayloadBad : WebhookPayload :=
  { event := "charge.success", reference := some "ref1", amount_kobo := 4000 }

/-- Sample sender wallet holding 1000.00. -/
def exSender : Wallet :=
  { id := 1, user_id := 7, wallet_number := "WALSENDER1", balance := 1000 }

/-- Sample recipient wallet holding 0.00. -/
def exRecipient : Wallet :=
  { id := 2, user_id := 8, wallet_number := "WALRECIP01", balance := 0 }

/-- Sample store holding the two transfer wallets and no transactions. -/
def exTransferDB : DB :=
  { wallets := [exSender, exRecipient], transactions := [] }

/-- The committed store `create_transfer_transaction` leaves behind for a
300.00 transfer between the sample wallets: both pending rows inserted and
committed, balances untouched. -/
def exC1CommittedDB : DB :=
  (create_transfer_transaction exSender exRecipient 300 none
    "transfer_abc" 21 22 exTransferDB).2.2

/-- Sample key store: user 7 owns five active keys (ids 1–5, expiring at
time 100) and one expired key (id 6, expired at time 3). -/
def exKeyDB : KeyDB :=
  { keys :=
      [{ id := 1, user_id := 7, name := "k1", hashed_key := "h1",
         permissions := ["wallet:write"], expires_at := 100, revoked := false,
         revoked_at := none, last_used_at := none },
       { id := 2, user_id := 7, name := "k2", hashed_key := "h2",
         permissions := [], expires_at := 100, revoked := false,
         revoked_at := none, last_used_at := none },
       { id := 3, user_id := 7, name := "k3", hashed_key := "h3",
         permissions := [], expires_at := 100, revoked := false,
         revoked_at := none, last_used_at := none },
       { id := 4, user_id := 7, name := "k4", hashed_key := "h4",
         permissions := [], expires_at := 100, revoked := false,
         revoked_at := none, last_used_at := none },
       { id := 5, user_id := 7, name := "k5", hashed_key := "h5",
         permissions := [], expires_at := 100, revoked := false,
         revoked_at := none, last_used_at := none },
       { id := 6, user_id := 7, name := "k6", hashed_key := "h6",
         permissions := ["wallet:read"], expires_at := 3, revoked := false,
         revoked_at := none, last_used_at := none }],
    users := [{ id := 7 }] }

end BashWallet

namespace BashWallet

/-- Replacing the row with a given primary key leaves every row's key
unchanged. -/
theorem key_of_keyed_update {α : Type} (key : α → ℕ) (x' y : α) :
    key (if key y == key x' then x' else y) = key y := by
  by_cases h : key y = key x'
  · simp [h]
  · simp [h]

/-- Looking a row up by primary key after a keyed replacement finds the
replacement applied to the originally found row. -/
theorem find?_by_key_after_update {α : Type} (key : α → ℕ) (l : List α)
    (x' : α) (i : ℕ) :
    (l.map (fun y => if key y == key x' then x' else y)).find?
        (fun y => key y == i)
      = (l.find? (fun y => key y == i)).map
          (fun y => if key y == key x' then x' else y) := by
  rw [List.find?_map]
  have hp : ((fun y => key y == i) ∘ fun y => if key y == key x' then x' else y)
      = fun y => key y == i := by
    funext y
    simp only [Function.comp_apply]
    rw [key_of_keyed_update key x' y]
  rw [hp]

/-- Searching by any predicate after a keyed replacement, when the row keys
are duplicate-free and the replacement still satisfies the predicate, finds
the replacement. -/
theorem find?_after_update_of_nodup {α : Type} (key : α → ℕ) (p : α → Bool)
    (l : List α) (x x' : α)
    (hfind : l.find? p = some x)
    (hkey : key x' = key x) (hp : p x' = true)
    (hnodup : (l.map key).Nodup) :
    (l.map (fun y => if key y == key x' then x' else y)).find? p = some x' := by
  induction l with
  | nil => simp at hfind
  | cons a t ih =>
    rw [List.map_cons] at hnodup
    have hnd := List.nodup_cons.mp hnodup
    by_cases ha : p a = true
    · rw [List.find?_cons_of_pos _ ha] at hfind
      obtain rfl : a = x := by injection hfind
      have hhead : (if (key a == key x') = true then x' else a) = x' := by
        simp [hkey]
      rw [List.map_cons, hhead, List.find?_cons_of_pos _ hp]
    · rw [List.find?_cons_of_neg _ ha] at hfind
      have hmem : x ∈ t := List.mem_of_find?_eq_some hfind
      have hne : ¬ key a = key x' := by
        rw [hkey]
        intro hcontra
        exact hnd.1 (hcontra ▸ List.mem_map_of_mem key hmem)
      have hhead : (if (key a == key x') = true then x' else a) = a := by
        simp [hne]
      rw [List.map_cons, hhead, List.find?_cons_of_neg _ ha]
      exact ih hfind hnd.2

/-- Wallet lookup by primary key after committing a mutated wallet. -/
theorem findWalletById_updateWallet (db : DB) (w' : Wallet) (i : ℕ) :
    (db.updateWallet w').findWalletById i
      = (db.findWalletById i).map (fun w => if w.id == w'.id then w' else w) :=
  find?_by_key_after_update Wallet.id db.wallets w' i

/-- Transaction lookup by reference after committing a mutated transaction
that keeps its id and reference, over duplicate-free transaction ids. -/
theorem findTransactionByReference_updateTransaction (db : DB)
    (txn txn' : Transaction) (r : String)
    (hfind : db.findTransactionByReference r = some txn)
    (hid : txn'.id = txn.id) (href : txn'.reference = some r)
    (hnodup : (db.transactions.map Transaction.id).Nodup) :
    (db.updateTransaction txn').findTransactionByReference r = some txn' :=
  find?_after_update_of_nodup Transaction.id
    (fun t => t.reference == some r) db.transactions txn txn' hfind hid
    (by simp [href]) hnodup

/-- Wallet lookup by user after committing a mutated wallet that keeps its
id and owner, over duplicate-free wallet ids. -/
theorem findWalletByUser_updateWallet (db : DB) (w w' : Wallet) (uid : ℕ)
    (hfind : db.findWalletByUser uid = some w)
    (hid : w'.id = w.id) (huser : w'.user_id = w.user_id)
    (hnodup : (db.wallets.map Wallet.id).Nodup) :
    (db.updateWallet w').findWalletByUser uid = some w' := by
  have hfind2 : db.wallets.find? (fun x => x.user_id == uid) = some w := hfind
  have hp := List.find?_some hfind2
  refine find?_after_update_of_nodup Wallet.id (fun x => x.user_id == uid)
    db.wallets w w' hfind2 hid ?_ hnodup
  simpa [huser] using hp

/-- `find?` skips a prefix in which it finds nothing. -/
theorem find?_append_of_none {α : Type} (l l' : List α) (p : α → Bool)
    (h : l.find? p = none) :
    (l ++ l').find? p = l'.find? p := by
  rw [List.find?_append, h, Option.none_or]

/-- Filtering by a predicate implied by the search predicate does not change
what `find?` finds. -/
theorem find?_filter_of_imp {α : Type} (l : List α) (p q : α → Bool)
    (h : ∀ x, p x = true → q x = true) :
    (l.filter q).find? p = l.find? p := by
  induction l with
  | nil => rfl
  | cons a t ih =>
    by_cases hq : q a = true
    · rw [List.filter_cons_of_pos hq]
      by_cases hpa : p a = true
      · rw [List.find?_cons_of_pos _ hpa, List.find?_cons_of_pos _ hpa]
      · rw [List.find?_cons_of_neg _ hpa, List.find?_cons_of_neg _ hpa, ih]
    · have hpa : ¬ p a = true := fun hpa => hq (h a hpa)
      rw [List.filter_cons_of_neg hq, List.find?_cons_of_neg _ hpa, ih]

/-- A dict merge stores its new value. -/
theorem metaGet_metaSet_self (m : List (String × String)) (k v : String) :
    metaGet (metaSet m k v) k = some v := by
  unfold metaGet metaSet
  rw [find?_append_of_none]
  · simp [List.find?]
  · refine List.find?_eq_none.mpr (fun x hx => ?_)
    have hne := List.of_mem_filter hx
    simp only [decide_eq_true_eq] at hne
    simp [hne]

/-- A dict merge leaves other keys alone. -/
theorem metaGet_metaSet_ne (m : List (String × String)) (k k' v : String)
    (h : k ≠ k') :
    metaGet (metaSet m k' v) k = metaGet m k := by
  unfold metaGet metaSet
  rw [List.find?_append]
  have htail : ([(k', v)]).find? (fun p => p.1 == k) = none := by
    have hk : (k' == k) = false := by
      simp only [beq_eq_false_iff_ne, ne_eq]
      exact fun hh => h hh.symm
    simp [List.find?, hk]
  rw [htail]
  rw [find?_filter_of_imp]
  · rw [Option.or_none]
  · intro x hx
    simp only [beq_iff_eq] at hx
    simp [hx, h]

end BashWallet

namespace BashWallet

/-- C10: for every non-negative amount with exactly two decimal places and
within the configured transaction range, converting naira to kobo and back
returns the amount unchanged (`convert_kobo_to_naira ∘ convert_naira_to_kobo`
is the identity on such amounts, by exact integer arithmetic). -/
theorem C10_minor_unit_roundtrip (x : ℚ) (hnn : 0 ≤ x)
    (hdp : (x * 100).den = 1) (hrange : x ≤ 1000000) :
    convert_kobo_to_naira (convert_naira_to_kobo x) = x := by
  unfold convert_naira_to_kobo convert_kobo_to_naira pyInt
  have h100 : (0 : ℚ) ≤ x * 100 := by positivity
  rw [if_pos h100]
  have hnum : ((x * 100).num : ℚ) = x * 100 :=
    Rat.coe_int_num_of_den_eq_one hdp
  rw [← hnum, Int.floor_intCast, hnum]
  ring

/-- Witness for C10 at the concrete amount 123.45. -/
theorem C10_minor_unit_roundtrip_witness :
    convert_kobo_to_naira (convert_naira_to_kobo (12345 / 100 : ℚ)) =
      12345 / 100 :=
  C10_minor_unit_roundtrip (12345 / 100) (by norm_num) (by norm_num)
    (by norm_num)

/-- C9 counterexample: the string `"1h"` does not match the claimed grammar
`\d+[HDMY]`, yet `validate_expiry_format` accepts it (the code uppercases
its input before matching), so creation does not fail on it. -/
theorem C9_counterexample :
    validate_expiry_format "1h" = true ∧ matches_spec_grammar "1h" = false := by
  decide

/-- C8: `validate_api_key` never returns a revoked or expired key — any key
it returns satisfies `revoked = false` and `now < expires_at` — and when no
active key's hash verifies against the plaintext it returns none. -/
theorem C8_validate_returns_only_active (plain : String)
    (verify : String → String → Bool) (now : ℕ) (db : KeyDB) :
    (∀ k u, (validate_api_key plain verify now db).1 = some (k, u) →
        k.revoked = false ∧ now < k.expires_at)
    ∧ ((∀ k ∈ db.keys, k.revoked = false → now < k.expires_at →
          verify plain k.hashed_key = false) →
        (validate_api_key plain verify now db).1 = none) := by
  constructor
  · intro k u h
    unfold validate_api_key at h
    cases hfind : (db.keys.filter (fun k => !k.revoked && now < k.expires_at)).find?
        (fun k => verify plain k.hashed_key) with
    | none =>
      rw [hfind] at h
      simp at h
    | some k0 =>
      rw [hfind] at h
      simp only [Option.some.injEq, Prod.mk.injEq] at h
      have hmem : k0 ∈ db.keys.filter (fun k => !k.revoked && now < k.expires_at) :=
        List.mem_of_find?_eq_some hfind
      have hact := List.of_mem_filter hmem
      simp only [Bool.and_eq_true, Bool.not_eq_true', decide_eq_true_eq] at hact
      have hk : k = { k0 with last_used_at := some now } := h.1.symm
      rw [hk]
      exact ⟨hact.1, hact.2⟩
  · intro hall
    unfold validate_api_key
    have hnone : (db.keys.filter (fun k => !k.revoked && now < k.expires_at)).find?
        (fun k => verify plain k.hashed_key) = none := by
      refine List.find?_eq_none.mpr (fun x hx => ?_)
      have hx1 := List.mem_of_mem_filter hx
      have hx2 := List.of_mem_filter hx
      simp only [Bool.and_eq_true, Bool.not_eq_true', decide_eq_true_eq] at hx2
      simp [hall x hx1 hx2.1 hx2.2]
    rw [hnone]

/-- Witness for C8: the activity facts of the key `validate_api_key` finds
in the sample store, and the none-result when nothing verifies. -/
theorem C8_validate_returns_only_active_witness :
    (({ id := 1, user_id := 7, name := "k1", hashed_key := "h1",
        permissions := ["wallet:write"], expires_at := 100, revoked := false,
        revoked_at := none, last_used_at := some 5 } : APIKey).revoked = false
      ∧ (5 : ℕ) < 100)
    ∧ (validate_api_key "x" (fun _ _ => false) 5 exKeyDB).1 = none :=
  ⟨(C8_validate_returns_only_active "x" (fun _ h => h == "h1") 5 exKeyDB).1
      { id := 1, user_id := 7, name := "k1", hashed_key := "h1",
        permissions := ["wallet:write"], expires_at := 100, revoked := false,
        revoked_at := none, last_used_at := some 5 }
      (some { id := 7 }) (by decide),
   (C8_validate_returns_only_active "x" (fun _ _ => false) 5 exKeyDB).2
      (by decide)⟩

end BashWallet

namespace BashWallet

/-- `spanDigits` recovers a split into an all-digit prefix and a rest whose
head (if any) is no digit. -/
theorem spanDigits_append (ds r : List Char)
    (hds : ∀ c ∈ ds, c.isDigit = true)
    (hr : ∀ c, r.head? = some c → c.isDigit = false) :
    spanDigits (ds ++ r) = (ds, r) := by
  induction ds with
  | nil =>
    cases r with
    | nil => rfl
    | cons c t =>
      have hc : c.isDigit = false := hr c rfl
      simp [spanDigits, hc]
  | cons d ds ih =>
    have hd : d.isDigit = true := hds d (by simp)
    have ih2 := ih (fun c hc => hds c (by simp [hc]))
    simp [spanDigits, hd, ih2]

/-- What `spanDigits` returns is such a split. -/
theorem spanDigits_spec (cs : List Char) :
    cs = (spanDigits cs).1 ++ (spanDigits cs).2
    ∧ (∀ c ∈ (spanDigits cs).1, c.isDigit = true)
    ∧ (∀ c, (spanDigits cs).2.head? = some c → c.isDigit = false) := by
  induction cs with
  | nil =>
    refine ⟨rfl, ?_, ?_⟩ <;> intro c hc <;> simp [spanDigits] at hc
  | cons a t ih =>
    by_cases ha : a.isDigit = true
    · obtain ⟨ih1, ih2, ih3⟩ := ih
      refine ⟨?_, ?_, ?_⟩ <;> simp only [spanDigits, ha, if_true]
      · exact congrArg (a :: ·) ih1
      · intro c hc
        rcases List.mem_cons.mp hc with hc | hc
        · exact hc ▸ ha
        · exact ih2 c hc
      · exact ih3
    · have ha2 : a.isDigit = false := by
        revert ha
        cases a.isDigit <;> simp
      refine ⟨?_, ?_, ?_⟩ <;>
        simp only [spanDigits, ha2, Bool.false_eq_true, if_false]
      · rfl
      · simp
      · intro c hc
        simp only [List.head?_cons, Option.some.injEq] at hc
        exact hc ▸ ha2

/-- `stripNLCore` walks past a head with a nonempty tail. -/
theorem stripNLCore_cons_cons (x y : Char) (l : List Char) :
    stripNLCore (x :: y :: l) = x :: stripNLCore (y :: l) := rfl

/-- `stripNLCore` drops exactly a trailing newline. -/
theorem stripNLCore_append_single (xs : List Char) (a : Char) :
    stripNLCore (xs ++ [a]) = if a = '\n' then xs else xs ++ [a] := by
  induction xs with
  | nil =>
    by_cases h : a = '\n' <;> simp [stripNLCore, h]
  | cons x xs ih =>
    have hx : (x :: xs) ++ [a] = x :: (xs ++ [a]) := rfl
    rw [hx]
    obtain ⟨y, l, hyl⟩ : ∃ y l, xs ++ [a] = y :: l := by
      cases hh : xs ++ [a] with
      | nil => exact absurd hh (by simp)
      | cons y l => exact ⟨y, l, rfl⟩
    rw [hyl, stripNLCore_cons_cons, ← hyl, ih]
    by_cases h : a = '\n' <;> simp [h]

/-- A digit is never the newline character. -/
theorem isDigit_ne_newline (c : Char) (h : c.isDigit = true) : c ≠ '\n' := by
  intro hc
  rw [hc] at h
  exact absurd h (by decide)

/-- The regex acceptance of `parse_expiry`, unit dispatch included, agrees
with the spec grammar `\d+[HDMY]` applied after uppercasing and stripping
one trailing newline (the anchor semantics of Python's `$`). -/
theorem expiry_accept_eq_spec_grammar (cs : List Char) :
    expiryUnitAccepted (expiryReMatch cs)
      = matches_spec_grammar ⟨stripNLCore cs⟩ := by
  rcases hsp : spanDigits cs with ⟨ds, r⟩
  obtain ⟨hcs, hds, hr⟩ := spanDigits_spec cs
  rw [hsp] at hcs hds hr
  have hcs2 : cs = ds ++ r := hcs
  have hds2 : ∀ c ∈ ds, c.isDigit = true := hds
  have hr2 : ∀ c, r.head? = some c → c.isDigit = false := hr
  clear hcs hds hr
  subst hcs2
  have hgram : ∀ t : List Char, (∀ c, t.head? = some c → c.isDigit = false) →
      matches_spec_grammar ⟨ds ++ t⟩ =
        (match t with
         | [u] => !ds.isEmpty && (u == 'H' || u == 'D' || u == 'M' || u == 'Y')
         | _ => false) := by
    intro t ht
    have hspan2 : spanDigits (ds ++ t) = (ds, t) := spanDigits_append ds t hds2 ht
    simp only [matches_spec_grammar, hspan2]
  cases r with
  | nil =>
    have hL : expiryReMatch (ds ++ []) = none := by
      simp only [expiryReMatch, hsp]
      split <;> rfl
    rw [hL]
    have hstrip : stripNLCore (ds ++ []) = ds ++ [] := by
      rw [List.append_nil]
      rcases List.eq_nil_or_concat ds with hnil | ⟨L, b, hLb⟩
      · rw [hnil]; rfl
      · have hb : b.isDigit = true := by
          refine hds2 b ?_
          rw [hLb, List.concat_eq_append]
          simp
        rw [hLb, List.concat_eq_append, stripNLCore_append_single,
          if_neg (isDigit_ne_newline b hb)]
    rw [hstrip, hgram [] (by simp)]
    by_cases hds0 : ds = [] <;> simp [hds0, expiryUnitAccepted]
  | cons u rest =>
    have hu : u.isDigit = false := hr2 u rfl
    cases rest with
    | nil =>
      have hL : expiryReMatch (ds ++ [u])
          = (if ds = [] then none
             else if u = 'H' ∨ u = 'D' ∨ u = ' ' ∨ u = 'M' ∨ u = 'Y' then
               some (ds, u)
             else none) := by
        simp only [expiryReMatch, hsp]
      rw [hL]
      by_cases hnl : u = '\n'
      · subst hnl
        have hstrip : stripNLCore (ds ++ ['\n']) = ds := by
          rw [stripNLCore_append_single, if_pos rfl]
        rw [hstrip]
        rw [show (⟨ds⟩ : String) = ⟨ds ++ []⟩ from by rw [List.append_nil]]
        rw [hgram [] (by simp)]
        have hclF : ¬('\n' = 'H' ∨ '\n' = 'D' ∨ '\n' = ' ' ∨ '\n' = 'M' ∨
            '\n' = 'Y') := by decide
        by_cases hds0 : ds = [] <;> simp [hds0, hclF, expiryUnitAccepted]
      · have hstrip : stripNLCore (ds ++ [u]) = ds ++ [u] := by
          rw [stripNLCore_append_single, if_neg hnl]
        rw [hstrip, hgram [u] (fun c0 hc0 => by
          simp only [List.head?_cons, Option.some.injEq] at hc0
          exact hc0 ▸ hu)]
        by_cases hds0 : ds = []
        · simp [hds0, expiryUnitAccepted]
        · rw [if_neg hds0]
          have hdsE : ds.isEmpty = false := by
            cases ds with
            | nil => exact absurd rfl hds0
            | cons a l => rfl
          by_cases hcl : u = 'H' ∨ u = 'D' ∨ u = ' ' ∨ u = 'M' ∨ u = 'Y'
          · rw [if_pos hcl]
            simp [expiryUnitAccepted, hdsE]
          · rw [if_neg hcl]
            have h1 : (u == 'H') = false :=
              beq_eq_false_iff_ne.mpr (fun hh => hcl (Or.inl hh))
            have h2 : (u == 'D') = false :=
              beq_eq_false_iff_ne.mpr (fun hh => hcl (Or.inr (Or.inl hh)))
            have h3 : (u == 'M') = false :=
              beq_eq_false_iff_ne.mpr
                (fun hh => hcl (Or.inr (Or.inr (Or.inr (Or.inl hh)))))
            have h4 : (u == 'Y') = false :=
              beq_eq_false_iff_ne.mpr
                (fun hh => hcl (Or.inr (Or.inr (Or.inr (Or.inr hh)))))
            simp [expiryUnitAccepted, h1, h2, h3, h4]
    | cons c rest2 =>
      cases rest2 with
      | nil =>
        have hL : expiryReMatch (ds ++ [u, c])
            = (if ds = [] then none
               else if c = '\n' ∧ (u = 'H' ∨ u = 'D' ∨ u = ' ' ∨ u = 'M' ∨
                   u = 'Y') then
                 some (ds, u)
               else none) := by
          simp only [expiryReMatch, hsp]
        rw [hL]
        by_cases hcn : c = '\n'
        · subst hcn
          have hstrip : stripNLCore (ds ++ [u, '\n']) = ds ++ [u] := by
            have hsplit : ds ++ [u, '\n'] = (ds ++ [u]) ++ ['\n'] := by simp
            rw [hsplit, stripNLCore_append_single, if_pos rfl]
          rw [hstrip, hgram [u] (fun c0 hc0 => by
            simp only [List.head?_cons, Option.some.injEq] at hc0
            exact hc0 ▸ hu)]
          by_cases hds0 : ds = []
          · simp [hds0, expiryUnitAccepted]
          · rw [if_neg hds0]
            have hdsE : ds.isEmpty = false := by
              cases ds with
              | nil => exact absurd rfl hds0
              | cons a l => rfl
            by_cases hcl : u = 'H' ∨ u = 'D' ∨ u = ' ' ∨ u = 'M' ∨ u = 'Y'
            · rw [if_pos ⟨rfl, hcl⟩]
              simp [expiryUnitAccepted, hdsE]
            · rw [if_neg (fun hh => hcl hh.2)]
              have h1 : (u == 'H') = false :=
                beq_eq_false_iff_ne.mpr (fun hh => hcl (Or.inl hh))
              have h2 : (u == 'D') = false :=
                beq_eq_false_iff_ne.mpr (fun hh => hcl (Or.inr (Or.inl hh)))
              have h3 : (u == 'M') = false :=
                beq_eq_false_iff_ne.mpr
                  (fun hh => hcl (Or.inr (Or.inr (Or.inr (Or.inl hh)))))
              have h4 : (u == 'Y') = false :=
                beq_eq_false_iff_ne.mpr
                  (fun hh => hcl (Or.inr (Or.inr (Or.inr (Or.inr hh)))))
              simp [expiryUnitAccepted, h1, h2, h3, h4]
        · have hstrip : stripNLCore (ds ++ [u, c]) = ds ++ [u, c] := by
            have hsplit : ds ++ [u, c] = (ds ++ [u]) ++ [c] := by simp
            rw [hsplit, stripNLCore_append_single, if_neg hcn, ← hsplit]
          rw [hstrip, hgram [u, c] (fun c0 hc0 => by
            simp only [List.head?_cons, Option.some.injEq] at hc0
            exact hc0 ▸ hu)]
          by_cases hds0 : ds = []
          · simp [hds0, expiryUnitAccepted]
          · rw [if_neg hds0, if_neg (fun hh => hcn hh.1)]
            simp [expiryUnitAccepted]
      | cons d t =>
        have hL : expiryReMatch (ds ++ (u :: c :: d :: t)) = none := by
          simp only [expiryReMatch, hsp]
          split <;> rfl
        rw [hL]
        rcases List.eq_nil_or_concat (d :: t) with hnil | ⟨Z, a, hZ⟩
        · exact absurd hnil (by simp)
        · have hsplit : ds ++ (u :: c :: d :: t) = (ds ++ (u :: c :: Z)) ++ [a] := by
            rw [hZ, List.concat_eq_append]
            simp
          by_cases han : a = '\n'
          · have hstrip : stripNLCore (ds ++ (u :: c :: d :: t))
                = ds ++ (u :: c :: Z) := by
              rw [hsplit, stripNLCore_append_single, if_pos han]
            rw [hstrip, hgram (u :: c :: Z) (fun c0 hc0 => by
              simp only [List.head?_cons, Option.some.injEq] at hc0
              exact hc0 ▸ hu)]
            by_cases hds0 : ds = [] <;> simp [hds0, expiryUnitAccepted]
          · have hstrip : stripNLCore (ds ++ (u :: c :: d :: t))
                = ds ++ (u :: c :: d :: t) := by
              rw [hsplit, stripNLCore_append_single, if_neg han, ← hsplit]
            rw [hstrip, hgram (u :: c :: d :: t) (fun c0 hc0 => by
              simp only [List.head?_cons, Option.some.injEq] at hc0
              exact hc0 ▸ hu)]
            by_cases hds0 : ds = [] <;> simp [hds0, expiryUnitAccepted]

end BashWallet

namespace BashWallet

/-- `validate_expiry_format` succeeds exactly when the uppercased input
passes the regex match and its unit group is one of `H`, `D`, `M`, `Y`. -/
theorem validate_expiry_eq_accept (s : String) :
    validate_expiry_format s
      = expiryUnitAccepted (expiryReMatch (pyUpper s).data) := by
  unfold validate_expiry_format parse_expiry
  by_cases hs : s = ""
  · subst hs
    decide
  · rw [if_neg hs]
    cases hm : expiryReMatch (pyUpper s).data with
    | none => rfl
    | some p =>
      rcases p with ⟨ds, u⟩
      by_cases h1 : u = 'H'
      · simp [h1, expiryUnitAccepted]
      · by_cases h2 : u = 'D'
        · simp [h1, h2, expiryUnitAccepted]
        · by_cases h3 : u = 'M'
          · simp [h1, h2, h3, expiryUnitAccepted]
          · by_cases h4 : u = 'Y'
            · simp [h1, h2, h3, h4, expiryUnitAccepted]
            · simp [h1, h2, h3, h4, expiryUnitAccepted]

/-- C9 (amended): the accepted duration codes are the grammar `\d+[HDMY]`
matched case-insensitively (the code uppercases first) and tolerating one
trailing newline (Python's `$`); `create_api_key` fails with the
invalid-expiry `ValidationError` exactly when the `expiry_spec` fails that
amended grammar, before any key is generated or persisted. -/
theorem C9_expiry_grammar_case_insensitive (s : String) :
    validate_expiry_format s
      = matches_spec_grammar (stripTrailingNewline (pyUpper s))
    ∧ ∀ (uid newId : ℕ) (name : String) (permissions : List String)
        (hashed : String) (now : ℕ) (db : KeyDB),
      (create_api_key uid name permissions s newId hashed now db
          = .error "Invalid expiry format. Use: 1H, 2D, 3M, 4Y")
        ↔ matches_spec_grammar (stripTrailingNewline (pyUpper s)) = false := by
  have hpart1 : validate_expiry_format s
      = matches_spec_grammar (stripTrailingNewline (pyUpper s)) := by
    rw [validate_expiry_eq_accept]
    exact expiry_accept_eq_spec_grammar (pyUpper s).data
  refine ⟨hpart1, ?_⟩
  intro uid newId name permissions hashed now db
  by_cases hv : validate_expiry_format s = true
  · have hg : matches_spec_grammar (stripTrailingNewline (pyUpper s)) = true := by
      rw [← hpart1]
      exact hv
    constructor
    · intro hcontra
      exfalso
      unfold create_api_key at hcontra
      simp only [hv, not_true_eq_false, if_false] at hcontra
      cases hp : parse_expiry s with
      | error e =>
        unfold validate_expiry_format at hv
        rw [hp] at hv
        exact absurd hv (by simp)
      | ok p =>
        rw [hp] at hcontra
        rcases p with ⟨amount, unit⟩
        by_cases hlim : 5 ≤ get_active_api_keys_count uid now db
        · rw [if_pos hlim] at hcontra
          injection hcontra with hmsg
          exact absurd hmsg (by decide)
        · rw [if_neg hlim] at hcontra
          simp at hcontra
    · intro hcontra
      rw [hg] at hcontra
      exact absurd hcontra (by decide)
  · have hv2 : validate_expiry_format s = false := by
      revert hv
      cases validate_expiry_format s <;> simp
    have hg : matches_spec_grammar (stripTrailingNewline (pyUpper s)) = false := by
      rw [← hpart1]
      exact hv2
    constructor
    · intro _
      exact hg
    · intro _
      simp [create_api_key, hv2]

end BashWallet

namespace BashWallet

/-- The amount-mismatch branch of `process_deposit_webhook`: when the
reference matches a non-completed transaction and the converted amount
disagrees, the call returns failure and commits the transaction marked
failed with the mismatch metadata, regardless of the exception oracle. -/
theorem process_webhook_amount_mismatch (payload : WebhookPayload)
    (exc : Option (Fin 3)) (now : ℕ) (db : DB) (txn : Transaction) (r : String)
    (hev : payload.event = "charge.success")
    (href : payload.reference = some r)
    (hr : r ≠ "")
    (hfind : db.findTransactionByReference r = some txn)
    (hnc : txn.status ≠ .completed)
    (hmm : convert_kobo_to_naira payload.amount_kobo ≠ txn.amount) :
    process_deposit_webhook payload exc now db
      = (false, db.updateTransaction { txn with
          status := .failed,
          transaction_metadata :=
            metaSet (metaSet txn.transaction_metadata
              "failure_reason" "Amount mismatch") "webhook_data" r }) := by
  simp [process_deposit_webhook, hev, href, hfind, hr, hnc, hmm]

/-- C7 counterexample: at the sample 40.00 webhook against the 50.00
pending deposit, the failure reason the code records is the string
"Amount mismatch", not the claimed "amount mismatch". -/
theorem C7_counterexample :
    (((process_deposit_webhook exPayloadBad none 99 exDB).2.findTransactionByReference
          "ref1").map (fun t => metaGet t.transaction_metadata "failure_reason"))
      = some (some "Amount mismatch")
    ∧ "Amount mismatch" ≠ "amount mismatch" := by
  have hmm : convert_kobo_to_naira exPayloadBad.amount_kobo ≠ exDeposit.amount := by
    norm_num [convert_kobo_to_naira, exPayloadBad, exDeposit]
  have hred := process_webhook_amount_mismatch exPayloadBad none 99 exDB
    exDeposit "ref1" rfl rfl (by decide) rfl (by decide) hmm
  rw [hred]
  constructor
  · decide
  · decide

/-- C7 (amended): a webhook whose reference matches a non-completed deposit
but whose converted amount disagrees with the recorded amount reports
failure, leaves every wallet untouched, and marks the transaction failed
with the recorded reason "Amount mismatch". -/
theorem C7_amount_mismatch_marks_failed (payload : WebhookPayload)
    (exc : Option (Fin 3)) (now : ℕ) (db : DB) (txn : Transaction) (r : String)
    (hev : payload.event = "charge.success")
    (href : payload.reference = some r)
    (hr : r ≠ "")
    (hfind : db.findTransactionByReference r = some txn)
    (hnc : txn.status ≠ .completed)
    (hmm : convert_kobo_to_naira payload.amount_kobo ≠ txn.amount)
    (hnodup : (db.transactions.map Transaction.id).Nodup) :
    (process_deposit_webhook payload exc now db).1 = false
    ∧ (process_deposit_webhook payload exc now db).2.wallets = db.wallets
    ∧ ∃ txn2,
        (process_deposit_webhook payload exc now db).2.findTransactionByReference r
          = some txn2
        ∧ txn2.status = .failed
        ∧ metaGet txn2.transaction_metadata "failure_reason"
            = some "Amount mismatch" := by
  have href2 : txn.reference = some r := by
    have hp := List.find?_some
      (show db.transactions.find? (fun t => t.reference == some r) = some txn from hfind)
    simpa using hp
  rw [process_webhook_amount_mismatch payload exc now db txn r hev href hr
    hfind hnc hmm]
  refine ⟨rfl, rfl, ?_⟩
  refine ⟨{ txn with
      status := .failed,
      transaction_metadata :=
        metaSet (metaSet txn.transaction_metadata
          "failure_reason" "Amount mismatch") "webhook_data" r }, ?_, rfl, ?_⟩
  · exact findTransactionByReference_updateTransaction db txn _ r hfind rfl
      href2 hnodup
  · rw [metaGet_metaSet_ne _ _ _ _ (by decide)]
    exact metaGet_metaSet_self _ _ _

/-- Witness for C7 at the sample 40.00 webhook against the 50.00 pending
deposit. -/
theorem C7_amount_mismatch_marks_failed_witness :
    (process_deposit_webhook exPayloadBad none 99 exDB).1 = false
    ∧ (process_deposit_webhook exPayloadBad none 99 exDB).2.wallets = exDB.wallets
    ∧ ∃ txn2,
        (process_deposit_webhook exPayloadBad none 99 exDB).2.findTransactionByReference
            "ref1"
          = some txn2
        ∧ txn2.status = .failed
        ∧ metaGet txn2.transaction_metadata "failure_reason"
            = some "Amount mismatch" :=
  C7_amount_mismatch_marks_failed exPayloadBad none 99 exDB exDeposit "ref1"
    rfl rfl (by decide) rfl (by decide)
    (by norm_num [convert_kobo_to_naira, exPayloadBad, exDeposit]) (by decide)

end BashWallet

namespace BashWallet

/-- The exception path of `process_deposit_webhook`'s final step: when the
webhook reaches the credit-and-complete block and an exception fires after
`k` of its statements, the call reports failure and commits the transaction
marked failed together with every mutation already applied (the wallet
credit when `1 ≤ k`). -/
theorem process_webhook_exception_branch (payload : WebhookPayload) (k : Fin 3)
    (now : ℕ) (db : DB) (txn : Transaction) (wallet : Wallet) (r : String)
    (hev : payload.event = "charge.success")
    (href : payload.reference = some r)
    (hr : r ≠ "")
    (hfind : db.findTransactionByReference r = some txn)
    (hnc : txn.status ≠ .completed)
    (hamt : convert_kobo_to_naira payload.amount_kobo = txn.amount)
    (hw : db.findWalletByUser txn.user_id = some wallet) :
    process_deposit_webhook payload (some k) now db
      = (false,
          (if 1 ≤ k.val then db.updateWallet (wallet.credit_balance txn.amount)
           else db).updateTransaction
            (if 2 ≤ k.val then { txn.mark_completed now with status := .failed }
             else { txn with status := .failed })) := by
  simp [process_deposit_webhook, hev, href, hr, hfind, hnc, hamt, hw]

/-- C2 counterexample: at the sample matching webhook, an exception raised
inside the credit step (before the balance changed) leaves the Transaction
committed as failed — not pending as claimed. -/
theorem C2_counterexample :
    ((process_deposit_webhook exPayload (some 0) 99 exDB).2.findTransactionByReference
        "ref1").map Transaction.status = some TransactionStatus.failed
    ∧ TransactionStatus.failed ≠ TransactionStatus.pending := by
  have hamt : convert_kobo_to_naira exPayload.amount_kobo = exDeposit.amount := by
    norm_num [convert_kobo_to_naira, exPayload, exDeposit]
  have hred := process_webhook_exception_branch exPayload 0 99 exDB exDeposit
    exWalletA "ref1" rfl rfl (by decide) rfl (by decide) hamt rfl
  rw [hred]
  exact ⟨by decide, by decide⟩

/-- C2 (amended): an exception during the final credit-and-complete step
reports failure and leaves the Transaction committed in status failed (not
pending), so a later redelivery does not hit the completed-only idempotency
guard; moreover any mutation applied before the exception is committed
alongside — in particular, when the exception fires after the credit
statement, the wallet balance is credited even though the Transaction never
became completed. -/
theorem C2_exception_commits_failed (payload : WebhookPayload) (k : Fin 3)
    (now : ℕ) (db : DB) (txn : Transaction) (wallet : Wallet) (r : String)
    (hev : payload.event = "charge.success")
    (href : payload.reference = some r)
    (hr : r ≠ "")
    (hfind : db.findTransactionByReference r = some txn)
    (hnc : txn.status ≠ .completed)
    (hamt : convert_kobo_to_naira payload.amount_kobo = txn.amount)
    (hw : db.findWalletByUser txn.user_id = some wallet)
    (hnodupT : (db.transactions.map Transaction.id).Nodup)
    (hnodupW : (db.wallets.map Wallet.id).Nodup) :
    (process_deposit_webhook payload (some k) now db).1 = false
    ∧ (∃ txn2,
        (process_deposit_webhook payload (some k) now db).2.findTransactionByReference r
          = some txn2
        ∧ txn2.status = .failed)
    ∧ (k.val = 0 →
        (process_deposit_webhook payload (some k) now db).2.wallets = db.wallets)
    ∧ (1 ≤ k.val →
        (process_deposit_webhook payload (some k) now db).2.findWalletByUser
            txn.user_id
          = some (wallet.credit_balance txn.amount)) := by
  have href2 : txn.reference = some r := by
    have hp := List.find?_some
      (show db.transactions.find? (fun t => t.reference == some r) = some txn from hfind)
    simpa using hp
  rw [process_webhook_exception_branch payload k now db txn wallet r hev href hr
    hfind hnc hamt hw]
  have hdbT : (if 1 ≤ k.val then db.updateWallet (wallet.credit_balance txn.amount)
      else db).transactions = db.transactions := by
    by_cases h1 : 1 ≤ k.val
    · rw [if_pos h1]
      rfl
    · rw [if_neg h1]
  have hfind1 : (if 1 ≤ k.val then db.updateWallet (wallet.credit_balance txn.amount)
      else db).findTransactionByReference r = some txn := by
    unfold DB.findTransactionByReference
    rw [hdbT]
    exact hfind
  have hnodup1 : ((if 1 ≤ k.val then db.updateWallet (wallet.credit_balance txn.amount)
      else db).transactions.map Transaction.id).Nodup := by
    rw [hdbT]
    exact hnodupT
  refine ⟨rfl, ?_, ?_, ?_⟩
  · by_cases h2 : 2 ≤ k.val
    · rw [if_pos h2]
      exact ⟨_, findTransactionByReference_updateTransaction _ txn _ r hfind1 rfl
        href2 hnodup1, rfl⟩
    · rw [if_neg h2]
      exact ⟨_, findTransactionByReference_updateTransaction _ txn _ r hfind1 rfl
        href2 hnodup1, rfl⟩
  · intro hk0
    have h1 : ¬ 1 ≤ k.val := by omega
    rw [if_neg h1]
    rfl
  · intro h1
    rw [if_pos h1]
    exact findWalletByUser_updateWallet db wallet (wallet.credit_balance txn.amount)
      txn.user_id hw rfl rfl hnodupW

/-- Witness for C2 at the sample matching webhook with the exception firing
after the credit statement. -/
theorem C2_exception_commits_failed_witness :
    (process_deposit_webhook exPayload (some 1) 99 exDB).1 = false
    ∧ (∃ txn2,
        (process_deposit_webhook exPayload (some 1) 99 exDB).2.findTransactionByReference
            "ref1"
          = some txn2
        ∧ txn2.status = .failed)
    ∧ ((1 : Fin 3).val = 0 →
        (process_deposit_webhook exPayload (some 1) 99 exDB).2.wallets = exDB.wallets)
    ∧ (1 ≤ (1 : Fin 3).val →
        (process_deposit_webhook exPayload (some 1) 99 exDB).2.findWalletByUser
            exDeposit.user_id
          = some (exWalletA.credit_balance exDeposit.amount)) :=
  C2_exception_commits_failed exPayload 1 99 exDB exDeposit exWalletA "ref1"
    rfl rfl (by decide) rfl (by decide)
    (by norm_num [convert_kobo_to_naira, exPayload, exDeposit]) rfl
    (by decide) (by decide)

end BashWallet

namespace BashWallet

/-- The happy path of `process_deposit_webhook`: a matching webhook against
a pending deposit credits the wallet, marks the transaction completed and
stamps the audit metadata, in one committed unit. -/
theorem process_webhook_success (payload : WebhookPayload) (now : ℕ) (db : DB)
    (txn : Transaction) (wallet : Wallet) (r : String)
    (hev : payload.event = "charge.success")
    (href : payload.reference = some r)
    (hr : r ≠ "")
    (hfind : db.findTransactionByReference r = some txn)
    (hnc : txn.status ≠ .completed)
    (hamt : convert_kobo_to_naira payload.amount_kobo = txn.amount)
    (hw : db.findWalletByUser txn.user_id = some wallet) :
    process_deposit_webhook payload none now db
      = (true, (db.updateWallet (wallet.credit_balance txn.amount)).updateTransaction
          { txn.mark_completed now with
            transaction_metadata :=
              metaSet (metaSet txn.transaction_metadata "webhook_processed" "true")
                "paystack_data" r }) := by
  simp [process_deposit_webhook, hev, href, hr, hfind, hnc, hamt, hw]

/-- The idempotency guard of `process_deposit_webhook`: a webhook whose
reference resolves to an already-completed transaction returns success and
leaves the store untouched. -/
theorem process_webhook_completed_noop (payload : WebhookPayload)
    (exc : Option (Fin 3)) (now : ℕ) (db : DB) (txn : Transaction) (r : String)
    (hev : payload.event = "charge.success")
    (href : payload.reference = some r)
    (hr : r ≠ "")
    (hfind : db.findTransactionByReference r = some txn)
    (hc : txn.status = .completed) :
    process_deposit_webhook payload exc now db = (true, db) := by
  simp [process_deposit_webhook, hev, href, hr, hfind, hc]

/-- C3: webhook processing is idempotent — the first delivery of a matching
webhook against a pending deposit succeeds, every store reached by N ≥ 1
identical deliveries equals the store after the first, the transaction is
completed and the wallet credited exactly once, and a delivery against the
already-completed transaction returns success without mutating anything. -/
theorem C3_webhook_idempotent (payload : WebhookPayload) (now : ℕ) (db : DB)
    (txn : Transaction) (wallet : Wallet) (r : String)
    (hev : payload.event = "charge.success")
    (href : payload.reference = some r)
    (hr : r ≠ "")
    (hfind : db.findTransactionByReference r = some txn)
    (hpend : txn.status = .pending)
    (hamt : convert_kobo_to_naira payload.amount_kobo = txn.amount)
    (hw : db.findWalletByUser txn.user_id = some wallet)
    (hnodupT : (db.transactions.map Transaction.id).Nodup)
    (hnodupW : (db.wallets.map Wallet.id).Nodup) :
    (process_deposit_webhook payload none now db).1 = true
    ∧ (∀ N, 1 ≤ N → deliverWebhookN payload now N db
        = (process_deposit_webhook payload none now db).2)
    ∧ (∃ txn2,
        (process_deposit_webhook payload none now db).2.findTransactionByReference r
          = some txn2
        ∧ txn2.status = .completed)
    ∧ (process_deposit_webhook payload none now db).2.findWalletByUser txn.user_id
        = some (wallet.credit_balance txn.amount)
    ∧ process_deposit_webhook payload none now
        (process_deposit_webhook payload none now db).2
      = (true, (process_deposit_webhook payload none now db).2) := by
  have hnc : txn.status ≠ .completed := by
    rw [hpend]
    exact fun h => TransactionStatus.noConfusion h
  have href2 : txn.reference = some r := by
    have hp := List.find?_some
      (show db.transactions.find? (fun t => t.reference == some r) = some txn from hfind)
    simpa using hp
  have hsucc := process_webhook_success payload now db txn wallet r hev href hr
    hfind hnc hamt hw
  have hfindU : (db.updateWallet (wallet.credit_balance txn.amount)).findTransactionByReference r
      = some txn := hfind
  have hnodupU : ((db.updateWallet
      (wallet.credit_balance txn.amount)).transactions.map Transaction.id).Nodup :=
    hnodupT
  have hfind2 : (process_deposit_webhook payload none now db).2.findTransactionByReference r
      = some { txn.mark_completed now with
          transaction_metadata :=
            metaSet (metaSet txn.transaction_metadata "webhook_processed" "true")
              "paystack_data" r } := by
    rw [hsucc]
    exact findTransactionByReference_updateTransaction _ txn _ r hfindU rfl href2
      hnodupU
  have hnoop : process_deposit_webhook payload none now
      (process_deposit_webhook payload none now db).2
      = (true, (process_deposit_webhook payload none now db).2) :=
    process_webhook_completed_noop payload none now _ _ r hev href hr hfind2 rfl
  have hiter : ∀ M, deliverWebhookN payload now M
      (process_deposit_webhook payload none now db).2
      = (process_deposit_webhook payload none now db).2 := by
    intro M
    induction M with
    | zero => rfl
    | succ M ih =>
      show deliverWebhookN payload now M
          (process_deposit_webhook payload none now
            (process_deposit_webhook payload none now db).2).2
        = (process_deposit_webhook payload none now db).2
      rw [hnoop]
      exact ih
  refine ⟨by rw [hsucc], ?_, ⟨_, hfind2, rfl⟩, ?_, hnoop⟩
  · intro N hN
    obtain ⟨M, rfl⟩ : ∃ M, N = M + 1 := ⟨N - 1, by omega⟩
    show deliverWebhookN payload now M (process_deposit_webhook payload none now db).2
      = (process_deposit_webhook payload none now db).2
    exact hiter M
  · rw [hsucc]
    exact findWalletByUser_updateWallet db wallet (wallet.credit_balance txn.amount)
      txn.user_id hw rfl rfl hnodupW

/-- Witness for C3 at the sample matching webhook, delivered three times. -/
theorem C3_webhook_idempotent_witness :
    (process_deposit_webhook exPayload none 99 exDB).1 = true
    ∧ deliverWebhookN exPayload 99 3 exDB
        = (process_deposit_webhook exPayload none 99 exDB).2
    ∧ (∃ txn2,
        (process_deposit_webhook exPayload none 99 exDB).2.findTransactionByReference
            "ref1"
          = some txn2
        ∧ txn2.status = .completed)
    ∧ (process_deposit_webhook exPayload none 99 exDB).2.findWalletByUser
          exDeposit.user_id
        = some (exWalletA.credit_balance exDeposit.amount) := by
  have h := C3_webhook_idempotent exPayload 99 exDB exDeposit exWalletA "ref1"
    rfl rfl (by decide) rfl (by decide)
    (by norm_num [convert_kobo_to_naira, exPayload, exDeposit]) rfl
    (by decide) (by decide)
  exact ⟨h.1, h.2.1 3 (by omega), h.2.2.1, h.2.2.2.1⟩

end BashWallet

namespace BashWallet

/-- An amount that passes `validate_wallet_amount` is positive. -/
theorem validate_wallet_amount_pos (amount : ℚ)
    (hv : validate_wallet_amount amount = true) : 0 < amount := by
  unfold validate_wallet_amount at hv
  by_cases h : amount ≤ 0
  · rw [if_pos h] at hv
    exact Bool.noConfusion hv
  · exact not_le.mp h

/-- A validated, covered, non-self transfer with no failure after the row
insert completes: it debits the sender, credits the recipient, and marks the
two inserted rows completed. -/
theorem execute_transfer_success (sender_wallet recipient_wallet : Wallet)
    (amount : ℚ) (descr : Option String) (ref : String) (id1 id2 : ℕ)
    (now : ℕ) (db : DB)
    (hv : validate_wallet_amount amount = true)
    (hbal : amount ≤ sender_wallet.balance)
    (hne : sender_wallet.id ≠ recipient_wallet.id) :
    execute_transfer sender_wallet recipient_wallet amount descr ref id1 id2
        false now db
      = .ok
          ({ transaction_id := id1
             sender_wallet := sender_wallet.wallet_number
             recipient_wallet := recipient_wallet.wallet_number
             amount := amount
             message := "Transfer successful" },
            (((((create_transfer_transaction sender_wallet recipient_wallet amount
                descr ref id1 id2 db).2.2.updateWallet
              { sender_wallet with
                balance := sender_wallet.balance - amount }).updateWallet
              (recipient_wallet.credit_balance amount)).updateTransaction
              ((create_transfer_transaction sender_wallet recipient_wallet amount
                descr ref id1 id2 db).1.mark_completed now)).updateTransaction
              ((create_transfer_transaction sender_wallet recipient_wallet amount
                descr ref id1 id2 db).2.1.mark_completed now))) := by
  have hpos : ¬ amount ≤ 0 := not_le.mpr (validate_wallet_amount_pos amount hv)
  have hnlt : ¬ sender_wallet.balance < amount := not_lt.mpr hbal
  have hdeb : sender_wallet.debit_balance amount
      = .ok { sender_wallet with balance := sender_wallet.balance - amount } := by
    unfold Wallet.debit_balance Wallet.has_sufficient_balance
    rw [if_pos (by simpa using hbal)]
  simp [execute_transfer, create_transfer_transaction, hv, hpos, hnlt, hne, hdeb]

/-- Every failing `execute_transfer` call leaves the committed wallet rows
untouched (only the two pending transaction rows may have been committed). -/
theorem execute_transfer_error_wallets (sender_wallet recipient_wallet : Wallet)
    (amount : ℚ) (descr : Option String) (ref : String) (id1 id2 : ℕ)
    (failpoint : Bool) (now : ℕ) (db : DB) (msg : String) (dbE : DB)
    (h : execute_transfer sender_wallet recipient_wallet amount descr ref id1 id2
        failpoint now db = .error (msg, dbE)) :
    dbE.wallets = db.wallets := by
  simp only [execute_transfer] at h
  repeat' split at h
  all_goals first
    | exact Except.noConfusion h
    | (simp only [Except.error.injEq, Prod.mk.injEq] at h
       rw [← h.2])
  all_goals rfl

end BashWallet

namespace BashWallet

/-- Webhook processing preserves nonnegative balances: every branch either
leaves the wallet rows untouched or credits one wallet by a recorded
(nonnegative) transaction amount. -/
theorem process_webhook_preserves_nonneg (payload : WebhookPayload)
    (exc : Option (Fin 3)) (now : ℕ) (db : DB)
    (hnnW : ∀ w ∈ db.wallets, 0 ≤ w.balance)
    (hnnT : ∀ t ∈ db.transactions, 0 ≤ t.amount) :
    ∀ w ∈ (process_deposit_webhook payload exc now db).2.wallets, 0 ≤ w.balance := by
  by_cases hev : payload.event = "charge.success"
  case neg =>
    have hred : process_deposit_webhook payload exc now db = (true, db) := by
      simp [process_deposit_webhook, hev]
    rw [hred]
    exact hnnW
  cases href : payload.reference with
  | none =>
    have hred : process_deposit_webhook payload exc now db = (false, db) := by
      simp [process_deposit_webhook, hev, href]
    rw [hred]
    exact hnnW
  | some r =>
    by_cases hr : r = ""
    · subst hr
      have hred : process_deposit_webhook payload exc now db = (false, db) := by
        simp [process_deposit_webhook, hev, href]
      rw [hred]
      exact hnnW
    · cases hfind : db.findTransactionByReference r with
      | none =>
        have hred : process_deposit_webhook payload exc now db = (false, db) := by
          simp [process_deposit_webhook, hev, href, hr, hfind]
        rw [hred]
        exact hnnW
      | some txn =>
        by_cases hc : txn.status = .completed
        · rw [process_webhook_completed_noop payload exc now db txn r hev href hr
            hfind hc]
          exact hnnW
        · by_cases hamt : convert_kobo_to_naira payload.amount_kobo = txn.amount
          case neg =>
            rw [process_webhook_amount_mismatch payload exc now db txn r hev href
              hr hfind hc hamt]
            exact hnnW
          cases hw : db.findWalletByUser txn.user_id with
          | none =>
            have hred : process_deposit_webhook payload exc now db
                = (false, db.updateTransaction { txn with status := .failed }) := by
              simp [process_deposit_webhook, hev, href, hr, hfind, hc, hamt, hw]
            rw [hred]
            exact hnnW
          | some wallet =>
            have hwmem : wallet ∈ db.wallets :=
              List.mem_of_find?_eq_some
                (show db.wallets.find? (fun w => w.user_id == txn.user_id)
                    = some wallet from hw)
            have htmem : txn ∈ db.transactions :=
              List.mem_of_find?_eq_some
                (show db.transactions.find? (fun t => t.reference == some r)
                    = some txn from hfind)
            have hcred : 0 ≤ (wallet.credit_balance txn.amount).balance :=
              add_nonneg (hnnW wallet hwmem) (hnnT txn htmem)
            have hmap : ∀ w ∈ (db.updateWallet
                (wallet.credit_balance txn.amount)).wallets, 0 ≤ w.balance := by
              intro w hwm
              rcases List.mem_map.mp hwm with ⟨w0, hw0, rfl⟩
              by_cases hid : (w0.id == (wallet.credit_balance txn.amount).id) = true
              · rw [if_pos hid]
                exact hcred
              · rw [if_neg hid]
                exact hnnW w0 hw0
            cases exc with
            | none =>
              rw [process_webhook_success payload now db txn wallet r hev href hr
                hfind hc hamt hw]
              exact hmap
            | some k =>
              rw [process_webhook_exception_branch payload k now db txn wallet r
                hev href hr hfind hc hamt hw]
              intro w hwm
              by_cases h1 : 1 ≤ k.val
              · rw [if_pos h1] at hwm
                exact hmap w hwm
              · rw [if_neg h1] at hwm
                exact hnnW w hwm

/-- C4: balances stay nonnegative at every committed state — `credit_balance`
with a positive amount, a successful `debit_balance` (which refuses to
overdraw), `execute_transfer` (success and failure alike), and webhook
crediting each map stores with nonnegative balances to stores with
nonnegative balances. -/
theorem C4_balance_nonnegative :
    (∀ (w : Wallet) (amount : ℚ), 0 < amount → 0 ≤ w.balance →
        0 ≤ (w.credit_balance amount).balance)
    ∧ (∀ (w w2 : Wallet) (amount : ℚ),
        w.debit_balance amount = .ok w2 → 0 ≤ w2.balance)
    ∧ (∀ (sender_wallet recipient_wallet : Wallet) (amount : ℚ)
        (descr : Option String) (ref : String) (id1 id2 : ℕ) (failpoint : Bool)
        (now : ℕ) (db : DB) (resp : TransferResponse) (msg : String) (db2 : DB),
        (∀ w ∈ db.wallets, 0 ≤ w.balance) →
        0 ≤ recipient_wallet.balance →
        (execute_transfer sender_wallet recipient_wallet amount descr ref id1 id2
            failpoint now db = .ok (resp, db2)
          ∨ execute_transfer sender_wallet recipient_wallet amount descr ref id1
            id2 failpoint now db = .error (msg, db2)) →
        ∀ w ∈ db2.wallets, 0 ≤ w.balance)
    ∧ (∀ (payload : WebhookPayload) (exc : Option (Fin 3)) (now : ℕ) (db : DB),
        (∀ w ∈ db.wallets, 0 ≤ w.balance) →
        (∀ t ∈ db.transactions, 0 ≤ t.amount) →
        ∀ w ∈ (process_deposit_webhook payload exc now db).2.wallets,
          0 ≤ w.balance) := by
  refine ⟨?_, ?_, ?_, ?_⟩
  · intro w amount hpos hb
    exact add_nonneg hb hpos.le
  · intro w w2 amount h
    unfold Wallet.debit_balance Wallet.has_sufficient_balance at h
    split at h
    · rename_i hsuff
      have hle : amount ≤ w.balance := of_decide_eq_true hsuff
      simp only [Except.ok.injEq] at h
      rw [← h]
      exact sub_nonneg.mpr hle
    · exact Except.noConfusion h
  · intro sender_wallet recipient_wallet amount descr ref id1 id2 failpoint now
      db resp msg db2 hnnW hrec hor w hw
    rcases hor with hok | herr
    · by_cases hv : validate_wallet_amount amount = true
      case neg =>
        have hv2 : validate_wallet_amount amount = false := by
          revert hv
          cases validate_wallet_amount amount <;> simp
        simp [execute_transfer, hv2] at hok
      have hpos := validate_wallet_amount_pos amount hv
      have hle0 : ¬ amount ≤ 0 := not_le.mpr hpos
      by_cases hblt : sender_wallet.balance < amount
      · simp [execute_transfer, hv, hle0, hblt] at hok
      by_cases hne : sender_wallet.id = recipient_wallet.id
      · simp [execute_transfer, hv, hle0, hblt, hne] at hok
      cases failpoint with
      | true => simp [execute_transfer, hv, hle0, hblt, hne] at hok
      | false =>
        rw [execute_transfer_success sender_wallet recipient_wallet amount descr
          ref id1 id2 now db hv (not_lt.mp hblt) hne] at hok
        simp only [Except.ok.injEq, Prod.mk.injEq] at hok
        rw [← hok.2] at hw
        rcases List.mem_map.mp hw with ⟨w1, hw1, rfl⟩
        rcases List.mem_map.mp hw1 with ⟨w0, hw0, rfl⟩
        by_cases hid1 : (w0.id ==
            ({ sender_wallet with
                balance := sender_wallet.balance - amount } : Wallet).id) = true
        · rw [if_pos hid1]
          have hsid : ¬ (({ sender_wallet with
              balance := sender_wallet.balance - amount } : Wallet).id ==
                (recipient_wallet.credit_balance amount).id) = true := by
            simpa using hne
          rw [if_neg hsid]
          exact sub_nonneg.mpr (not_lt.mp hblt)
        · rw [if_neg hid1]
          by_cases hid2 : (w0.id == (recipient_wallet.credit_balance amount).id)
              = true
          · rw [if_pos hid2]
            exact add_nonneg hrec hpos.le
          · rw [if_neg hid2]
            exact hnnW w0 hw0
    · rw [execute_transfer_error_wallets sender_wallet recipient_wallet amount
        descr ref id1 id2 failpoint now db msg db2 herr] at hw
      exact hnnW w hw
  · exact process_webhook_preserves_nonneg

end BashWallet

namespace BashWallet

/-- Witness for C4: the four conjuncts applied to the sample wallets and
stores. -/
theorem C4_balance_nonnegative_witness :
    0 ≤ (exWalletA.credit_balance 5).balance
    ∧ 0 ≤ ({ exSender with balance := exSender.balance - 300 } : Wallet).balance
    ∧ 0 ≤ exSender.balance
    ∧ 0 ≤ exWalletA.balance := by
  have hnnW : ∀ w ∈ exTransferDB.wallets, 0 ≤ w.balance := by
    intro w hw
    simp only [exTransferDB, List.mem_cons, List.not_mem_nil, or_false] at hw
    rcases hw with rfl | rfl
    · norm_num [exSender]
    · norm_num [exRecipient]
  have hnnW2 : ∀ w ∈ exDB.wallets, 0 ≤ w.balance := by
    intro w hw
    simp only [exDB, List.mem_cons, List.not_mem_nil, or_false] at hw
    rcases hw with rfl
    norm_num [exWalletA]
  have hnnT2 : ∀ t ∈ exDB.transactions, 0 ≤ t.amount := by
    intro t ht
    simp only [exDB, List.mem_cons, List.not_mem_nil, or_false] at ht
    rcases ht with rfl
    norm_num [exDeposit]
  have herr : execute_transfer exSender exRecipient (-5) none "transfer_x" 21 22
      false 5 exTransferDB = .error ("Invalid transfer amount", exTransferDB) := by
    norm_num [execute_transfer, validate_wallet_amount]
  refine ⟨C4_balance_nonnegative.1 exWalletA 5 (by norm_num)
      (by norm_num [exWalletA]),
    C4_balance_nonnegative.2.1 exSender _ 300 (by
      norm_num [Wallet.debit_balance, Wallet.has_sufficient_balance, exSender]),
    C4_balance_nonnegative.2.2.1 exSender exRecipient (-5) none "transfer_x" 21
      22 false 5 exTransferDB ⟨0, "", "", 0, ""⟩ "Invalid transfer amount"
      exTransferDB hnnW (by norm_num [exRecipient]) (Or.inr herr) exSender
      (show exSender ∈ exTransferDB.wallets from List.mem_cons_self _ _),
    C4_balance_nonnegative.2.2.2 ⟨"noop", none, 0⟩ none 0 exDB hnnW2 hnnT2
      exWalletA
      (show exWalletA ∈ (process_deposit_webhook ⟨"noop", none, 0⟩ none 0
          exDB).2.wallets from List.mem_cons_self _ _)⟩

end BashWallet


namespace BashWallet

/-- Replacing a transaction row whose id is absent from a list leaves the
list unchanged. -/
theorem map_update_transaction_id (l : List Transaction) (x : Transaction)
    (h : ∀ t ∈ l, t.id ≠ x.id) :
    l.map (fun t => if t.id == x.id then x else t) = l := by
  induction l with
  | nil => rfl
  | cons a tl ih =>
    have ha : (a.id == x.id) = false :=
      beq_eq_false_iff_ne.mpr (h a (by simp))
    rw [List.map_cons, if_neg (by simp [ha]), ih (fun t ht => h t (by simp [ht]))]

/-- Committing the two completed transfer rows over a store that held
neither id replaces exactly the two appended pending rows. -/
theorem map_two_updates (l : List Transaction) (d c d2 c2 : Transaction)
    (hd2 : d2.id = d.id) (hc2 : c2.id = c.id) (hdc : d.id ≠ c.id)
    (hf1 : ∀ t ∈ l, t.id ≠ d.id) (hf2 : ∀ t ∈ l, t.id ≠ c.id) :
    ((l ++ [d, c]).map (fun t => if t.id == d2.id then d2 else t)).map
      (fun t => if t.id == c2.id then c2 else t) = l ++ [d2, c2] := by
  rw [List.map_append]
  rw [map_update_transaction_id l d2 (fun t ht => by rw [hd2]; exact hf1 t ht)]
  have h1 : [d, c].map (fun t => if t.id == d2.id then d2 else t) = [d2, c] := by
    rw [List.map_cons, List.map_cons, List.map_nil]
    rw [if_pos (by simp [hd2])]
    rw [if_neg (by simp only [hd2, beq_iff_eq]; exact fun hh => hdc hh.symm)]
  rw [h1, List.map_append]
  rw [map_update_transaction_id l c2 (fun t ht => by rw [hc2]; exact hf2 t ht)]
  have h2 : [d2, c].map (fun t => if t.id == c2.id then c2 else t) = [d2, c2] := by
    rw [List.map_cons, List.map_cons, List.map_nil]
    rw [if_neg (by simp only [hc2, hd2, beq_iff_eq]; exact hdc)]
    rw [if_pos (by simp [hc2])]
  rw [h2]

end BashWallet

namespace BashWallet

/-- C5: a validated, covered, non-self transfer succeeds and, in the
resulting store, the sender's balance has dropped by the amount, the
recipient's has risen by it, their sum is unchanged, and exactly two new
transaction rows exist — one debit-side, one credit-side — both completed
and sharing the fresh reference, which no other row carries. -/
theorem C5_transfer_postconditions (sender_wallet recipient_wallet : Wallet)
    (amount : ℚ) (descr : Option String) (ref : String) (id1 id2 now : ℕ)
    (db : DB)
    (hv : validate_wallet_amount amount = true)
    (hbal : amount ≤ sender_wallet.balance)
    (hne : sender_wallet.id ≠ recipient_wallet.id)
    (hfresh : ∀ t ∈ db.transactions,
      t.id ≠ id1 ∧ t.id ≠ id2 ∧ t.reference ≠ some ref)
    (hid12 : id1 ≠ id2) :
    ∃ resp db2 s2 r2,
      execute_transfer sender_wallet recipient_wallet amount descr ref id1 id2
          false now db = .ok (resp, db2)
      ∧ db2.findWalletById sender_wallet.id
          = (db.findWalletById sender_wallet.id).map (fun _ => s2)
      ∧ db2.findWalletById recipient_wallet.id
          = (db.findWalletById recipient_wallet.id).map (fun _ => r2)
      ∧ s2.balance = sender_wallet.balance - amount
      ∧ r2.balance = recipient_wallet.balance + amount
      ∧ s2.balance + r2.balance
          = sender_wallet.balance + recipient_wallet.balance
      ∧ ∃ d2 c2,
          db2.transactions = db.transactions ++ [d2, c2]
          ∧ d2.status = .completed ∧ c2.status = .completed
          ∧ d2.reference = some ref ∧ c2.reference = some ref
          ∧ metaGet d2.transaction_metadata "transfer_type" = some "debit"
          ∧ metaGet c2.transaction_metadata "transfer_type" = some "credit"
          ∧ (db2.transactions.filter (fun t => t.reference == some ref)).length
              = 2 := by
  have hsucc := execute_transfer_success sender_wallet recipient_wallet amount
    descr ref id1 id2 now db hv hbal hne
  refine ⟨_, _, { sender_wallet with balance := sender_wallet.balance - amount },
    recipient_wallet.credit_balance amount, hsucc, ?_, ?_, rfl, rfl,
    (by simp [Wallet.credit_balance]), ?_⟩
  · show (((create_transfer_transaction sender_wallet recipient_wallet amount
        descr ref id1 id2 db).2.2.updateWallet
        { sender_wallet with
          balance := sender_wallet.balance - amount }).updateWallet
        (recipient_wallet.credit_balance amount)).findWalletById
        sender_wallet.id
      = (db.findWalletById sender_wallet.id).map
          (fun _ => { sender_wallet with
            balance := sender_wallet.balance - amount })
    rw [findWalletById_updateWallet, findWalletById_updateWallet]
    have hbase : (create_transfer_transaction sender_wallet recipient_wallet
        amount descr ref id1 id2 db).2.2.findWalletById sender_wallet.id
        = db.findWalletById sender_wallet.id := rfl
    rw [hbase]
    cases hfs : db.findWalletById sender_wallet.id with
    | none => rfl
    | some ws =>
      have hws : ws.id = sender_wallet.id := by
        have hp := List.find?_some
          (show db.wallets.find? (fun w => w.id == sender_wallet.id) = some ws
            from hfs)
        simpa using hp
      simp [hws, Wallet.credit_balance, hne]
  · show (((create_transfer_transaction sender_wallet recipient_wallet amount
        descr ref id1 id2 db).2.2.updateWallet
        { sender_wallet with
          balance := sender_wallet.balance - amount }).updateWallet
        (recipient_wallet.credit_balance amount)).findWalletById
        recipient_wallet.id
      = (db.findWalletById recipient_wallet.id).map
          (fun _ => recipient_wallet.credit_balance amount)
    rw [findWalletById_updateWallet, findWalletById_updateWallet]
    have hbase : (create_transfer_transaction sender_wallet recipient_wallet
        amount descr ref id1 id2 db).2.2.findWalletById recipient_wallet.id
        = db.findWalletById recipient_wallet.id := rfl
    rw [hbase]
    cases hfr : db.findWalletById recipient_wallet.id with
    | none => rfl
    | some wr =>
      have hwr : wr.id = recipient_wallet.id := by
        have hp := List.find?_some
          (show db.wallets.find? (fun w => w.id == recipient_wallet.id)
              = some wr from hfr)
        simpa using hp
      have hne2 : recipient_wallet.id ≠ sender_wallet.id := Ne.symm hne
      simp [hwr, Wallet.credit_balance, hne2]
  · have htx : ((((((create_transfer_transaction sender_wallet recipient_wallet
        amount descr ref id1 id2 db).2.2.updateWallet
        { sender_wallet with
          balance := sender_wallet.balance - amount }).updateWallet
        (recipient_wallet.credit_balance amount)).updateTransaction
        ((create_transfer_transaction sender_wallet recipient_wallet amount
          descr ref id1 id2 db).1.mark_completed now)).updateTransaction
        ((create_transfer_transaction sender_wallet recipient_wallet amount
          descr ref id1 id2 db).2.1.mark_completed now)).transactions)
        = db.transactions
          ++ [(create_transfer_transaction sender_wallet recipient_wallet
              amount descr ref id1 id2 db).1.mark_completed now,
            (create_transfer_transaction sender_wallet recipient_wallet amount
              descr ref id1 id2 db).2.1.mark_completed now] := by
      exact map_two_updates db.transactions _ _ _ _ rfl rfl hid12
        (fun t ht => (hfresh t ht).1) (fun t ht => (hfresh t ht).2.1)
    refine ⟨(create_transfer_transaction sender_wallet recipient_wallet amount
        descr ref id1 id2 db).1.mark_completed now,
      (create_transfer_transaction sender_wallet recipient_wallet amount descr
        ref id1 id2 db).2.1.mark_completed now,
      htx, rfl, rfl, rfl, rfl, rfl, rfl, ?_⟩
    rw [htx, List.filter_append]
    have hnil : db.transactions.filter (fun t => t.reference == some ref)
        = [] := by
      refine List.filter_eq_nil_iff.mpr (fun t ht => ?_)
      simp only [beq_iff_eq]
      exact (hfresh t ht).2.2
    have hd : (((create_transfer_transaction sender_wallet recipient_wallet
        amount descr ref id1 id2 db).1.mark_completed now).reference
        == some ref) = true := beq_self_eq_true (some ref)
    have hc : (((create_transfer_transaction sender_wallet recipient_wallet
        amount descr ref id1 id2 db).2.1.mark_completed now).reference
        == some ref) = true := beq_self_eq_true (some ref)
    rw [hnil, List.filter_cons, if_pos hd, List.filter_cons, if_pos hc]
    rfl

end BashWallet

namespace BashWallet

/-- Witness for C5: the 300.00 transfer between the sample wallets. -/
theorem C5_transfer_postconditions_witness :
    ∃ resp db2 s2 r2,
      execute_transfer exSender exRecipient 300 none "transfer_abc" 21 22
          false 5 exTransferDB = .ok (resp, db2)
      ∧ db2.findWalletById exSender.id
          = (exTransferDB.findWalletById exSender.id).map (fun _ => s2)
      ∧ db2.findWalletById exRecipient.id
          = (exTransferDB.findWalletById exRecipient.id).map (fun _ => r2)
      ∧ s2.balance = exSender.balance - 300
      ∧ r2.balance = exRecipient.balance + 300
      ∧ s2.balance + r2.balance = exSender.balance + exRecipient.balance
      ∧ ∃ d2 c2,
          db2.transactions = exTransferDB.transactions ++ [d2, c2]
          ∧ d2.status = .completed ∧ c2.status = .completed
          ∧ d2.reference = some "transfer_abc"
          ∧ c2.reference = some "transfer_abc"
          ∧ metaGet d2.transaction_metadata "transfer_type" = some "debit"
          ∧ metaGet c2.transaction_metadata "transfer_type" = some "credit"
          ∧ (db2.transactions.filter
              (fun t => t.reference == some "transfer_abc")).length = 2 :=
  C5_transfer_postconditions exSender exRecipient 300 none "transfer_abc" 21 22
    5 exTransferDB
    (by norm_num [validate_wallet_amount])
    (by norm_num [exSender])
    (by decide)
    (fun t ht => absurd ht (List.not_mem_nil t))
    (by decide)

end BashWallet

namespace BashWallet
/-- Moving the clock forward never increases the active-key count. -/
theorem get_active_api_keys_count_antitone (uid t t2 : ℕ) (db : KeyDB)
    (h : t ≤ t2) :
    get_active_api_keys_count uid t2 db ≤ get_active_api_keys_count uid t db := by
  unfold get_active_api_keys_count
  rw [← List.countP_eq_length_filter, ← List.countP_eq_length_filter]
  refine List.countP_mono_left (fun k hk hp => ?_)
  simp only [Bool.and_eq_true, decide_eq_true_eq] at hp ⊢
  exact ⟨hp.1, lt_of_le_of_lt h hp.2⟩

/-- A successful `create_api_key` keeps every user's active-key count at the
call instant within the 5-key ceiling. -/
theorem create_api_key_preserves_bound (uid : ℕ) (name : String)
    (permissions : List String) (expiry : String) (newId : ℕ) (hashed : String)
    (now : ℕ) (db db2 : KeyDB) (key : APIKey)
    (h : create_api_key uid name permissions expiry newId hashed now db
      = .ok (key, db2))
    (hgood : ∀ uid2, get_active_api_keys_count uid2 now db ≤ 5) :
    ∀ uid2, get_active_api_keys_count uid2 now db2 ≤ 5 := by
  simp only [create_api_key] at h
  split at h
  · exact Except.noConfusion h
  · split at h
    · exact Except.noConfusion h
    · rename_i hlim
      split at h
      · exact Except.noConfusion h
      · simp only [Except.ok.injEq, Prod.mk.injEq] at h
        obtain ⟨hkey, hdb⟩ := h
        have hku : key.user_id = uid := by rw [← hkey]
        rw [hkey] at hdb
        intro uid2
        rw [← hdb]
        unfold get_active_api_keys_count
        rw [List.filter_append, List.length_append]
        by_cases huid : uid2 = uid
        · subst huid
          have hlt := Nat.lt_of_not_le hlim
          have hone : ((([key]).filter (fun k => k.user_id == uid2 && !k.revoked
              && now < k.expires_at)).length) ≤ 1 :=
            le_trans (List.length_filter_le _ [key]) (by simp)
          unfold get_active_api_keys_count at hlt
          omega
        · have hz : (([key]).filter (fun k => k.user_id == uid2 && !k.revoked
              && now < k.expires_at)).length = 0 := by
            have hb : (key.user_id == uid2) = false :=
              beq_eq_false_iff_ne.mpr (by rw [hku]; exact fun hh => huid hh.symm)
            simp [List.filter, hb]
          rw [hz]
          have hg := hgood uid2
          unfold get_active_api_keys_count at hg
          omega

/-- A successful `rollover_api_key` keeps every user's active-key count at
the call instant within the 5-key ceiling. -/
theorem rollover_api_key_preserves_bound (uid : ℕ) (expired_key_id : ℕ)
    (expiry : String) (newId : ℕ) (hashed : String) (now : ℕ) (db db2 : KeyDB)
    (key : APIKey)
    (h : rollover_api_key uid expired_key_id expiry newId hashed now db
      = .ok (key, db2))
    (hgood : ∀ uid2, get_active_api_keys_count uid2 now db ≤ 5) :
    ∀ uid2, get_active_api_keys_count uid2 now db2 ≤ 5 := by
  simp only [rollover_api_key] at h
  split at h
  · exact Except.noConfusion h
  · split at h
    · exact Except.noConfusion h
    · split at h
      · exact Except.noConfusion h
      · split at h
        · exact Except.noConfusion h
        · rename_i hlim
          split at h
          · exact Except.noConfusion h
          · simp only [Except.ok.injEq, Prod.mk.injEq] at h
            obtain ⟨hkey, hdb⟩ := h
            have hku : key.user_id = uid := by rw [← hkey]
            rw [hkey] at hdb
            intro uid2
            rw [← hdb]
            unfold get_active_api_keys_count
            rw [List.filter_append, List.length_append]
            by_cases huid : uid2 = uid
            · subst huid
              have hlt := Nat.lt_of_not_le hlim
              have hone : ((([key]).filter (fun k => k.user_id == uid2
                  && !k.revoked && now < k.expires_at)).length) ≤ 1 :=
                le_trans (List.length_filter_le _ [key]) (by simp)
              unfold get_active_api_keys_count at hlt
              omega
            · have hz : (([key]).filter (fun k => k.user_id == uid2
                  && !k.revoked && now < k.expires_at)).length = 0 := by
                have hb : (key.user_id == uid2) = false :=
                  beq_eq_false_iff_ne.mpr
                    (by rw [hku]; exact fun hh => huid hh.symm)
                simp [List.filter, hb]
              rw [hz]
              have hg := hgood uid2
              unfold get_active_api_keys_count at hg
              omega

/-- One lifecycle operation preserves the 5-key ceiling at its own instant. -/
theorem keyOp_apply_preserves_bound (op : KeyOp) (db : KeyDB)
    (hgood : ∀ uid2, get_active_api_keys_count uid2 op.time db ≤ 5) :
    ∀ uid2, get_active_api_keys_count uid2 op.time (op.apply db) ≤ 5 := by
  cases op with
  | create uid name permissions expiry newId hashed t =>
    cases hc : create_api_key uid name permissions expiry newId hashed t db with
    | ok p =>
      have hred : (KeyOp.create uid name permissions expiry newId hashed
          t).apply db = p.2 := by
        simp only [KeyOp.apply]
        rw [hc]
      rw [hred]
      exact create_api_key_preserves_bound uid name permissions expiry newId
        hashed t db p.2 p.1 (by rw [hc]) hgood
    | error e =>
      have hred : (KeyOp.create uid name permissions expiry newId hashed
          t).apply db = db := by
        simp only [KeyOp.apply]
        rw [hc]
      rw [hred]
      exact hgood
  | rollover uid ekid expiry newId hashed t =>
    cases hc : rollover_api_key uid ekid expiry newId hashed t db with
    | ok p =>
      have hred : (KeyOp.rollover uid ekid expiry newId hashed t).apply db
          = p.2 := by
        simp only [KeyOp.apply]
        rw [hc]
      rw [hred]
      exact rollover_api_key_preserves_bound uid ekid expiry newId hashed t db
        p.2 p.1 (by rw [hc]) hgood
    | error e =>
      have hred : (KeyOp.rollover uid ekid expiry newId hashed t).apply db
          = db := by
        simp only [KeyOp.apply]
        rw [hc]
      rw [hred]
      exact hgood

/-- Running a time-ordered trace of lifecycle operations from a store within
the ceiling keeps every user's active-key count within the ceiling at every
later instant. -/
theorem runKeyOps_bound (trace : List KeyOp) (db : KeyDB) (tprev : ℕ)
    (hgood : ∀ uid2, get_active_api_keys_count uid2 tprev db ≤ 5)
    (hchain : List.Chain (· ≤ ·) tprev (trace.map KeyOp.time)) :
    ∀ t, (∀ op ∈ trace, op.time ≤ t) → tprev ≤ t →
      ∀ uid2, get_active_api_keys_count uid2 t (runKeyOps trace db) ≤ 5 := by
  induction trace generalizing db tprev with
  | nil =>
    intro t _ hle uid2
    exact le_trans (get_active_api_keys_count_antitone uid2 tprev t db hle)
      (hgood uid2)
  | cons op rest ih =>
    intro t hall hle uid2
    rw [List.map_cons, List.chain_cons] at hchain
    have hgood2 : ∀ u, get_active_api_keys_count u op.time db ≤ 5 :=
      fun u => le_trans
        (get_active_api_keys_count_antitone u tprev op.time db hchain.1)
        (hgood u)
    have hgood3 := keyOp_apply_preserves_bound op db hgood2
    exact ih (op.apply db) op.time hgood3 hchain.2 t
      (fun o ho => hall o (by simp [ho])) (hall op (by simp)) uid2

end BashWallet

namespace BashWallet

/-- C6: over every time-ordered sequence of key creations and rollovers from
an empty store, every user holds at most 5 active API keys at every later
instant; and a creation or rollover attempted with a well-formed expiry
while the user already holds 5 or more active keys fails with the
limit-exceeded error and persists nothing. -/
theorem C6_active_key_ceiling :
    (∀ (trace : List KeyOp) (t : ℕ),
        List.Chain (· ≤ ·) 0 (trace.map KeyOp.time) →
        (∀ op ∈ trace, op.time ≤ t) →
        ∀ uid, get_active_api_keys_count uid t (runKeyOps trace emptyKeyDB) ≤ 5)
    ∧ (∀ (uid : ℕ) (name : String) (permissions : List String)
        (expiry : String) (newId : ℕ) (hashed : String) (now : ℕ) (db : KeyDB),
        validate_expiry_format expiry = true →
        5 ≤ get_active_api_keys_count uid now db →
        create_api_key uid name permissions expiry newId hashed now db
          = .error "Maximum of 5 active API keys allowed")
    ∧ (∀ (uid expired_key_id : ℕ) (expiry : String) (newId : ℕ)
        (hashed : String) (now : ℕ) (db : KeyDB) (expired_key : APIKey),
        validate_expiry_format expiry = true →
        db.keys.find? (fun k => k.id == expired_key_id && k.user_id == uid)
          = some expired_key →
        expired_key.is_expired now = true →
        5 ≤ get_active_api_keys_count uid now db →
        rollover_api_key uid expired_key_id expiry newId hashed now db
          = .error "Maximum of 5 active API keys exceeded. Cannot rollover.") := by
  refine ⟨?_, ?_, ?_⟩
  · intro trace t hchain hall uid
    refine runKeyOps_bound trace emptyKeyDB 0 (fun u => ?_) hchain t hall
      (Nat.zero_le t) uid
    simp [get_active_api_keys_count, emptyKeyDB]
  · intro uid name permissions expiry newId hashed now db hv hlim
    simp [create_api_key, hv, hlim]
  · intro uid expired_key_id expiry newId hashed now db expired_key hv hfind
      hexp hlim
    simp [rollover_api_key, hv, hfind, hexp, hlim]

/-- Witness for C6: a two-creation trace stays within the ceiling, and both
a 6th creation and a rollover against the sample user holding five active
keys fail with the limit errors. -/
theorem C6_active_key_ceiling_witness :
    get_active_api_keys_count 7 3
        (runKeyOps [KeyOp.create 7 "a" [] "2D" 1 "h1" 0,
          KeyOp.create 7 "b" [] "2D" 2 "h2" 1] emptyKeyDB) ≤ 5
    ∧ create_api_key 7 "k7" ["wallet:read"] "1H" 7 "h7" 5 exKeyDB
        = .error "Maximum of 5 active API keys allowed"
    ∧ rollover_api_key 7 6 "1H" 7 "h7" 5 exKeyDB
        = .error "Maximum of 5 active API keys exceeded. Cannot rollover." :=
  ⟨C6_active_key_ceiling.1 [KeyOp.create 7 "a" [] "2D" 1 "h1" 0,
      KeyOp.create 7 "b" [] "2D" 2 "h2" 1] 3
      (by
        show List.Chain (· ≤ ·) 0 [0, 1]
        exact List.Chain.cons (by norm_num)
          (List.Chain.cons (by norm_num) List.Chain.nil))
      (by
        intro op hop
        rcases List.mem_cons.mp hop with rfl | hop
        · norm_num [KeyOp.time]
        rcases List.mem_cons.mp hop with rfl | hop
        · norm_num [KeyOp.time]
        · exact absurd hop (List.not_mem_nil op)) 7,
   C6_active_key_ceiling.2.1 7 "k7" ["wallet:read"] "1H" 7 "h7" 5 exKeyDB
      (by decide) (by decide),
   C6_active_key_ceiling.2.2 7 6 "1H" 7 "h7" 5 exKeyDB _ (by decide) rfl
      (by decide) (by decide)⟩

end BashWallet

namespace BashWallet

/-- C1: the transfer is not one atomic unit. `create_transfer_transaction`
commits the two pending rows on its own (transfer_service.py line 104),
before any balance or status mutation; a failure after that commit (modelled
by the failpoint) rolls back only the uncommitted work, leaving a committed
store that differs from the pre-transfer store: it holds the two pending
transfer rows under the fresh reference while both balances are unchanged —
exactly the partial state the claim says can never be observed. -/
theorem C1_transfer_commit_not_atomic :
    execute_transfer exSender exRecipient 300 none "transfer_abc" 21 22 true 5
        exTransferDB
      = .error ("Transfer failed", exC1CommittedDB)
    ∧ exC1CommittedDB.wallets = exTransferDB.wallets
    ∧ exC1CommittedDB.transactions.map Transaction.status
        = [.pending, .pending]
    ∧ exC1CommittedDB.transactions.map Transaction.reference
        = [some "transfer_abc", some "transfer_abc"]
    ∧ exC1CommittedDB ≠ exTransferDB := by
  have hv : validate_wallet_amount 300 = true := by
    norm_num [validate_wallet_amount]
  have hle0 : ¬ (300 : ℚ) ≤ 0 := by norm_num
  have hnlt : ¬ exSender.balance < 300 := by norm_num [exSender]
  have hne : ¬ exSender.id = exRecipient.id := by decide
  refine ⟨?_, rfl, rfl, rfl, ?_⟩
  · simp [execute_transfer, exC1CommittedDB, hv, hle0, hnlt, hne]
  · intro h
    have hlen := congrArg (fun d => d.transactions.length) h
    simp [exC1CommittedDB, exTransferDB, create_transfer_transaction] at hlen

end BashWallet
